import Mathlib

/-!
# Verification of the RideShare dispatch engine

A shallow embedding of the RideShare simulation engine (`src/db.py`,
`src/matcher.py`, `src/replayer.py`, `src/app.py`) and proofs about it.

Modelling conventions:
* SQL tables become association lists keyed by id; an SQL `UPDATE ... WHERE`
  becomes a pointwise map over the list, and the `WHERE` clause beyond the
  key equality becomes the boolean guard of that map.
* The Redis busy-set (`busy_drivers`) becomes a list of driver ids;
  `SADD`/`SREM` become the `sadd`/`srem` functions below.
* Python floats are embedded as exact numbers: coordinates, timestamps and
  rates that claims compare exactly are rationals; the transcendental
  geometry (`_haversine`, `calculate_fare`) is embedded over the reals.
* Wall-clock effects (sleeps, `NOW()`, latency measurement) are outside the
  embedding; nondeterministic failure of the candidate query and of the
  assignment transaction is injected through the `fetchFails`/`txnFails`
  flags of the world state, modelling the exceptions caught in
  `matcher.match_ride`.
* The distance ranking key of the matcher is a parameter `dist` into an
  arbitrary linear order, instantiated with the real `_haversine` in the
  theorems about great-circle ranking; this keeps the state machine
  executable on concrete inputs.
-/

namespace RideShare

/-- Ride lifecycle states, from the `rides_p.status` column
(`replayer.py`, `matcher.py`, `app.py`). -/
inductive RideStatus
  | REQUESTED
  | ASSIGNED
  | EN_ROUTE
  | COMPLETED
  | EXPIRED
  | FAILED
deriving DecidableEq

/-- Driver states, from the `drivers.status` column
(`init_drivers.py`, `matcher.py`). -/
inductive DriverStatus
  | AVAILABLE
  | MATCHING
  | EN_ROUTE
deriving DecidableEq

/-- A row of the `drivers` table (`driver_id`, `current_lon`, `current_lat`,
`status`); `name` and `last_updated` carry no claim-relevant information. -/
structure Driver where
  driver_id : Nat
  lon : ℚ
  lat : ℚ
  status : DriverStatus
deriving DecidableEq

/-- A row of the `rides_p` table, restricted to the columns the claims are
about: `status`, `assigned_driver`, `retries`, `requested_at`.
(`assigned_at` and `match_latency_ms` are wall-clock data outside the
embedding.) -/
structure RideRow where
  status : RideStatus
  assigned_driver : Option Nat
  retries : Nat
  requested_at : ℚ
deriving DecidableEq

/-- A row of the `trips_p` table.  The source inserts
`(ride_id, driver_id, start_time, end_time, total_amount, distance)`;
`total_amount` and `distance` are computed by `calculate_fare ∘ _haversine`
from the stored coordinates, so the row keeps the determining coordinates
and the real-valued fields are recovered by the geometry functions below. -/
structure TripRow where
  driver_id : Nat
  pickup_lon : ℚ
  pickup_lat : ℚ
  dropoff_lon : ℚ
  dropoff_lat : ℚ
deriving DecidableEq

/-- A ride seed, i.e. the `ride` dict built by `replayer.process_ride` from a
`nyc_clean` row. -/
structure Ride where
  ride_id : Nat
  pickup_lon : ℚ
  pickup_lat : ℚ
  dropoff_lon : ℚ
  dropoff_lat : ℚ
  requested_at : ℚ
  passenger_count : Nat
deriving DecidableEq

/-- The whole mutable world the dispatch engine acts on: the two SQL tables,
the trips table, the Redis busy-set, and two fault-injection flags modelling
the exceptions that `matcher.match_ride` catches (a failing candidate query,
`matcher.py:202`, and a raising assignment transaction, `matcher.py:316`). -/
structure World where
  drivers : List Driver
  rides : List (Nat × RideRow)
  trips : List (Nat × TripRow)
  busy : List Nat
  fetchFails : Bool
  txnFails : Bool
deriving DecidableEq

/-- Redis `SADD`: returns whether the element was newly added, plus the new
set (`matcher.try_acquire_driver`, `matcher.py:61`). -/
def sadd (s : List Nat) (d : Nat) : Bool × List Nat :=
  if d ∈ s then (false, s) else (true, d :: s)

/-- Redis `SREM` (`matcher.release_driver`, `matcher.py:98`). -/
def srem (s : List Nat) (d : Nat) : List Nat :=
  s.erase d

/-- `try_acquire_driver` (`matcher.py:53`): atomically add to the busy-set,
succeeding iff the driver was not already present. -/
def try_acquire_driver (busy : List Nat) (driver_id : Nat) : Bool × List Nat :=
  sadd busy driver_id

/-- `release_driver` (`matcher.py:91`): remove from the busy-set. -/
def release_driver (busy : List Nat) (driver_id : Nat) : List Nat :=
  srem busy driver_id

/-- Look up a row by key in an association list (SQL point read). -/
def lookupRow {α : Type} (rows : List (Nat × α)) (key : Nat) : Option α :=
  (rows.find? (fun p => p.1 = key)).map (·.2)

/-- `UPDATE ... WHERE <key> = k AND <guard>`: map over the table, rewriting
exactly the rows matching the key whose current value satisfies the guard. -/
def updateWhere {α : Type} (rows : List (Nat × α)) (key : Nat)
    (guard : α → Bool) (f : α → α) : List (Nat × α) :=
  rows.map (fun p => if p.1 = key ∧ guard p.2 then (p.1, f p.2) else p)

/-- `SELECT status FROM drivers WHERE driver_id=%s FOR UPDATE`
(`matcher.py:252`): point read of the drivers table. -/
def findDriver (drivers : List Driver) (driver_id : Nat) : Option Driver :=
  drivers.find? (fun d => d.driver_id = driver_id)

/-- `UPDATE drivers ... WHERE driver_id=%s`: rewrite the matching rows. -/
def updateDriver (drivers : List Driver) (driver_id : Nat)
    (f : Driver → Driver) : List Driver :=
  drivers.map (fun d => if d.driver_id = driver_id then f d else d)

/-- `MAX_NEAREST_DRIVERS` (`matcher.py:18`). -/
def MAX_NEAREST_DRIVERS : Nat := 10

/-- Insert an element into a list sorted by `key`, keeping existing elements
with a smaller-or-equal key in front (the stability of Python's `sorted`). -/
def insertByKey {α β : Type} [LinearOrder β] (key : α → β) (a : α) :
    List α → List α
  | [] => [a]
  | b :: bs => if key b ≤ key a then b :: insertByKey key a bs else a :: b :: bs

/-- Stable sort by a key function, embedding
`sorted(candidates, key=...)` (`matcher.py:216`). -/
def sortByKey {α β : Type} [LinearOrder β] (key : α → β) : List α → List α
  | [] => []
  | a :: as_ => insertByKey key a (sortByKey key as_)

/-- The candidate query of `match_ride` (`matcher.py:173`–`201`): up to 50
`AVAILABLE` drivers whose id is not in the busy-set snapshot.  (`ORDER BY
random()` is embedded as the table order.) -/
def candidateQuery (drivers : List Driver) (busy : List Nat) : List Driver :=
  ((drivers.filter
      (fun d => d.status = DriverStatus.AVAILABLE ∧ d.driver_id ∉ busy))).take 50

/-- The proximity ranking of `match_ride` (`matcher.py:216`–`218`):
sort the candidates by the distance key and keep the top
`MAX_NEAREST_DRIVERS`. -/
def nearestOf {β : Type} [LinearOrder β] (key : Driver → β)
    (candidates : List Driver) : List Driver :=
  (sortByKey key candidates).take MAX_NEAREST_DRIVERS

/-- The acquisition walk of `match_ride` (`matcher.py:227`–`239`): call
`try_acquire_driver` on each ranked candidate; the first success is the
acquired candidate, and the busy-set records the successful add. -/
def acquireFirst (busy : List Nat) : List Driver → Option Nat × List Nat
  | [] => (none, busy)
  | d :: rest =>
    match try_acquire_driver busy d.driver_id with
    | (true, busy') => (some d.driver_id, busy')
    | (false, _) => acquireFirst busy rest

/-- The body of the assignment transaction of `match_ride`
(`matcher.py:248`–`297`), acting on the two tables:
re-read the acquired driver (`FOR UPDATE`); if it is no longer `AVAILABLE`
return `none`; otherwise set the driver to `MATCHING` positioned at the
pickup and conditionally (`WHERE ... status='REQUESTED'`) assign the ride. -/
def assignTxn (w : World) (ride : Ride) (acquired : Nat) :
    Option Nat × World :=
  match findDriver w.drivers acquired with
  | none => (none, w)
  | some row =>
    if row.status = DriverStatus.AVAILABLE then
      let drivers' := updateDriver w.drivers acquired
        (fun d => { d with status := DriverStatus.MATCHING,
                           lon := ride.pickup_lon, lat := ride.pickup_lat })
      let rides' := updateWhere w.rides ride.ride_id
        (fun r => r.status = RideStatus.REQUESTED)
        (fun r => { r with assigned_driver := some acquired,
                           status := RideStatus.ASSIGNED, retries := 0 })
      (some acquired, { w with drivers := drivers', rides := rides' })
    else
      (none, w)

/-- `match_ride` (`matcher.py:144`–`326`).  Returns the matched driver id (or
`none`) together with the resulting world.  The two caught exception paths
are driven by the world's fault flags: a failing candidate query returns
`none` (`matcher.py:202`–`204`); a raising assignment transaction releases
the acquired driver and returns `none` (`matcher.py:316`–`326`); an
assignment transaction returning `none` also releases the acquired driver
(`matcher.py:302`–`308`). -/
def matchRide {β : Type} [LinearOrder β] (dist : ℚ → ℚ → ℚ → ℚ → β)
    (w : World) (ride : Ride) : Option Nat × World :=
  if w.fetchFails then (none, w)
  else
    let candidates := candidateQuery w.drivers w.busy
    if candidates = [] then (none, w)
    else
      let nearest := nearestOf
        (fun d => dist ride.pickup_lon ride.pickup_lat d.lon d.lat) candidates
      match acquireFirst w.busy nearest with
      | (none, _) => (none, w)
      | (some acquired, busy') =>
        let w1 := { w with busy := busy' }
        if w.txnFails then
          (none, { w1 with busy := release_driver busy' acquired })
        else
          match assignTxn w1 ride acquired with
          | (none, w2) => (none, { w2 with busy := release_driver busy' acquired })
          | (some d, w2) => (some d, w2)

/-- The completion status update of `complete_ride` (`matcher.py:363`–`368`):
`UPDATE rides_p SET status='COMPLETED', retries=0 WHERE ride_id=%s`
— conditioned on the key only. -/
def completeStmt (rides : List (Nat × RideRow)) (ride_id : Nat) :
    List (Nat × RideRow) :=
  updateWhere rides ride_id (fun _ => true)
    (fun r => { r with status := RideStatus.COMPLETED, retries := 0 })

/-- `calculate_fare` and the trip geometry are recovered from the stored
coordinates; `complete_ride` (`matcher.py:332`–`396`): inside one
transaction, insert the trip row (`ON CONFLICT (ride_id) DO NOTHING`), set
the ride to `COMPLETED` (`WHERE ride_id` only, `matcher.py:365`), free the
driver at the dropoff; then release the driver from the busy-set. -/
def completeRide (w : World) (ride : Ride) (driver_id : Nat) : World :=
  let trips' :=
    match lookupRow w.trips ride.ride_id with
    | some _ => w.trips
    | none => (ride.ride_id,
        (⟨driver_id, ride.pickup_lon, ride.pickup_lat,
          ride.dropoff_lon, ride.dropoff_lat⟩ : TripRow)) :: w.trips
  let rides' := completeStmt w.rides ride.ride_id
  let drivers' := updateDriver w.drivers driver_id
    (fun d => { d with status := DriverStatus.AVAILABLE,
                       lon := ride.dropoff_lon, lat := ride.dropoff_lat })
  { w with trips := trips', rides := rides', drivers := drivers',
           busy := release_driver w.busy driver_id }

/-- Which database harness executes a statement: the serializable retry
harness `run_txn`, or a plain auto-commit cursor
(`get_cursor(commit=True)`). -/
inductive Harness
  | runTxn
  | plainCursor
deriving DecidableEq

/-- The harness that executes the REQUESTED upsert in
`replayer.process_ride`: the source opens `with get_cursor(commit=True)`
(`replayer.py:55`), not `run_txn`. -/
def persistRequestedHarness : Harness := Harness.plainCursor

/-- The REQUESTED upsert of `replayer.process_ride` (`replayer.py:56`–`70`):
`INSERT ... VALUES (..., 'REQUESTED', 0) ON CONFLICT (ride_id) DO UPDATE SET
status='REQUESTED', requested_at=EXCLUDED.requested_at`.  On a fresh insert
the row starts `REQUESTED` with `retries=0` and no assigned driver; on
conflict only `status` and `requested_at` are rewritten. -/
def persistRequested (w : World) (ride : Ride) : World :=
  match lookupRow w.rides ride.ride_id with
  | none =>
    let row : RideRow := ⟨RideStatus.REQUESTED, none, 0, ride.requested_at⟩
    { w with rides := (ride.ride_id, row) :: w.rides }
  | some _ =>
    let rides' := updateWhere w.rides ride.ride_id (fun _ => true)
      (fun r => { r with status := RideStatus.REQUESTED,
                         requested_at := ride.requested_at })
    { w with rides := rides' }

/-- The worker's post-match confirmation (`replayer.py:87`):
`UPDATE rides_p SET status='ASSIGNED', retries=0 WHERE ride_id=%s`
— conditioned on the key only. -/
def markAssignedStmt (rides : List (Nat × RideRow)) (ride_id : Nat) :
    List (Nat × RideRow) :=
  updateWhere rides ride_id (fun _ => true)
    (fun r => { r with status := RideStatus.ASSIGNED, retries := 0 })

/-- The worker's retry counter update (`replayer.py:96`–`105`):
`SET retries = retries + 1 WHERE ride_id=%s AND assigned_driver IS NULL AND
status='REQUESTED'`. -/
def bumpRetriesStmt (rides : List (Nat × RideRow)) (ride_id : Nat) :
    List (Nat × RideRow) :=
  updateWhere rides ride_id
    (fun r => r.assigned_driver = none ∧ r.status = RideStatus.REQUESTED)
    (fun r => { r with retries := r.retries + 1 })

/-- The worker's expiry update (`replayer.py:112`–`121`):
`SET status='EXPIRED' WHERE ride_id=%s AND assigned_driver IS NULL AND
status='REQUESTED'`. -/
def expireStmt (rides : List (Nat × RideRow)) (ride_id : Nat) :
    List (Nat × RideRow) :=
  updateWhere rides ride_id
    (fun r => r.assigned_driver = none ∧ r.status = RideStatus.REQUESTED)
    (fun r => { r with status := RideStatus.EXPIRED })

/-- The worker's EN_ROUTE update (`replayer.py:130`):
`UPDATE rides_p SET status='EN_ROUTE', retries=0 WHERE ride_id=%s`
— conditioned on the key only. -/
def enRouteStmt (rides : List (Nat × RideRow)) (ride_id : Nat) :
    List (Nat × RideRow) :=
  updateWhere rides ride_id (fun _ => true)
    (fun r => { r with status := RideStatus.EN_ROUTE, retries := 0 })

/-- `replayer.process_ride` (`replayer.py:28`–`150`), for one serial worker:
persist REQUESTED, attempt a match, and either confirm ASSIGNED →
EN_ROUTE → complete, or bump `retries` and expire once the wait window
elapses.  The match loop is collapsed to a single attempt followed by the
timeout path: a failed serial attempt leaves the world unchanged
(proved below as `matchRide_none_world`), so every further attempt of the
loop returns the same result and the collapse is the loop's fixpoint. -/
def processRide {β : Type} [LinearOrder β] (dist : ℚ → ℚ → ℚ → ℚ → β)
    (w : World) (ride : Ride) : World :=
  let w1 := persistRequested w ride
  match matchRide dist w1 ride with
  | (some driver_id, w2) =>
    let w3 := { w2 with rides := markAssignedStmt w2.rides ride.ride_id }
    let w4 := { w3 with rides := enRouteStmt w3.rides ride.ride_id }
    completeRide w4 ride driver_id
  | (none, w2) =>
    let w3 := { w2 with rides := bumpRetriesStmt w2.rides ride.ride_id }
    { w3 with rides := expireStmt w3.rides ride.ride_id }

/-- The terminal observation of the idempotence law: the ride's status, the
trip row's `ride_id` (if any), and the status of the ride's assigned
driver. -/
def terminalTriple (w : World) (ride_id : Nat) :
    Option RideStatus × Option Nat × Option DriverStatus :=
  ((lookupRow w.rides ride_id).map (·.status),
   (lookupRow w.trips ride_id).map (fun _ => ride_id),
   ((lookupRow w.rides ride_id).bind (·.assigned_driver)).bind
     (fun d => (findDriver w.drivers d).map (·.status)))

/-! ## The serializable transaction harness (`src/db.py`) -/

/-- The outcome of one call of `fn(cur)` inside `run_txn`: either success
with a value, or a `PsycopgError` carrying its SQLSTATE `pgcode` (which may
be absent, `db.py:126`). -/
inductive TxnAttempt (α : Type)
  | success (v : α)
  | failure (pgcode : Option String)
deriving DecidableEq

/-- The interface-level outcome of `run_txn`.  The source either returns the
value of `fn`, re-raises the ORIGINAL `PsycopgError` (`db.py:175`), or — when
`max_retries = 0`, so the `for` loop body never runs — falls through and
returns Python's implicit `None` (`fellThrough`).  The `transactionFailed`
constructor is modelled from the spec: "fail with `TransactionFailed`
carrying the original cause and attempt count"; no such wrapper exists in
`db.py`, and the constructor exists only so the code's behavior can be
compared against the spec's. -/
inductive TxnOutcome (α : Type)
  | ok (v : α)
  | raisedOriginal (pgcode : Option String)
  | fellThrough
  | transactionFailed (cause : Option String) (attempts : Nat)
deriving DecidableEq

/-- The `for attempt in range(max_retries)` loop of `run_txn`
(`db.py:93`–`181`): run the attempts in order; on success return the value;
on a `40001` failure with retries left, sleep `0.1·2^attempt +
jitter attempt` seconds and retry; otherwise re-raise the original error.
Returns the outcome together with the list of backoff sleeps performed.
`fuel` is the number of loop iterations left, kept in sync with `attempt`
(`fuel + attempt = maxRetries`); the loop running out of iterations is the
`for` loop falling through.  `outcomes i` is the result of calling `fn` on
attempt `i`; `jitter i` is the value drawn by `random_jitter()`
(`db.py:191`–`193`) before the retry of attempt `i`. -/
def runTxnGo {α : Type} (outcomes : Nat → TxnAttempt α) (jitter : Nat → ℚ)
    (maxRetries : Nat) : Nat → Nat → TxnOutcome α × List ℚ
  | 0, _ => (TxnOutcome.fellThrough, [])
  | fuel + 1, attempt =>
    match outcomes attempt with
    | TxnAttempt.success v => (TxnOutcome.ok v, [])
    | TxnAttempt.failure code =>
      if code = some "40001" ∧ attempt < maxRetries - 1 then
        match runTxnGo outcomes jitter maxRetries fuel (attempt + 1) with
        | (res, sleeps) => (res, (1/10 * 2 ^ attempt + jitter attempt) :: sleeps)
      else
        (TxnOutcome.raisedOriginal code, [])

/-- `run_txn(fn, max_retries=5)` (`db.py:78`): attempts start at 0, with the
full retry budget as fuel. -/
def run_txn {α : Type} (outcomes : Nat → TxnAttempt α) (jitter : Nat → ℚ)
    (maxRetries : Nat) : TxnOutcome α × List ℚ :=
  runTxnGo outcomes jitter maxRetries maxRetries 0

/-! ## The replay scheduler tally (`src/replayer.py:190`–`204`) -/

/-- What `future.result()` reports for one finished worker: a normal return,
or an uncaught error propagating out of `process_ride`. -/
inductive WorkerOutcome
  | completedOK
  | raisedError (msg : String)
deriving DecidableEq

/-- Whether a worker outcome is an uncaught error. -/
def WorkerOutcome.isError : WorkerOutcome → Bool
  | WorkerOutcome.completedOK => false
  | WorkerOutcome.raisedError _ => true

/-- The `as_completed` tally loop of `replayer` (`replayer.py:196`–`204`):
`completed_count += 1` on a normal result, `failed_count += 1` when
`future.result()` raises.  Returns `(completed_count, failed_count)`. -/
def tallyOutcomes : List WorkerOutcome → Nat × Nat
  | [] => (0, 0)
  | o :: rest =>
    let t := tallyOutcomes rest
    match o with
    | WorkerOutcome.completedOK => (t.1 + 1, t.2)
    | WorkerOutcome.raisedError _ => (t.1, t.2 + 1)

/-! ## The metrics throughput computation (`src/app.py:160`–`203`) -/

/-- The persisted throughput baseline: Redis keys `metrics:last_completed`
and `metrics:last_time`. -/
structure MetricsBaseline where
  last_completed : Nat
  last_time : ℚ
deriving DecidableEq

/-- Python's `round(x, 2)` on a rational: round to two decimal places.
(Python rounds half to even on floats; the two differ only on exact
half-cent values, which no claim touches.) -/
def round2 (x : ℚ) : ℚ :=
  ((round (x * 100) : ℤ) : ℚ) / 100

/-- The throughput section of `api_metrics` (`app.py:160`–`203`):
given the stored baseline (or `none` on first run), the current
`COMPLETED` count and the current time, return the reported throughput and
the baseline left in the store.  Transliterated: first run initializes the
baseline and reports 0; a decreased count resets the baseline and reports 0;
otherwise `delta_time` is clamped below by 1 ms, the rate is
`(delta_rides / delta_time) * 60` clamped at 0 and rounded to 2 decimals,
and the baseline advances only when `delta_rides > 0`. -/
def computeThroughput (baseline : Option MetricsBaseline)
    (completed : Nat) (now : ℚ) : ℚ × MetricsBaseline :=
  match baseline with
  | none => (0, ⟨completed, now⟩)
  | some b =>
    if completed < b.last_completed then
      (0, ⟨completed, now⟩)
    else
      let delta_rides : ℚ := (completed : ℚ) - (b.last_completed : ℚ)
      let delta_time : ℚ := max (now - b.last_time) (1/1000)
      let raw := delta_rides / delta_time * 60
      let throughput := round2 (max raw 0)
      let throughput := if throughput < 0 then 0 else throughput
      (throughput, if 0 < delta_rides then ⟨completed, now⟩ else b)

/-! ## Great-circle geometry and fares (`src/matcher.py:17`, `31`–`47`) -/

/-- `EARTH_R` (`matcher.py:17`). -/
noncomputable def EARTH_R : ℝ := 6371

/-- `math.radians`. -/
noncomputable def radians (x : ℝ) : ℝ := x * Real.pi / 180

/-- `_haversine` (`matcher.py:31`–`42`): great-circle distance in km. -/
noncomputable def _haversine (lon1 lat1 lon2 lat2 : ℝ) : ℝ :=
  EARTH_R * (2 * Real.arcsin (Real.sqrt
    (Real.sin ((radians lat2 - radians lat1) / 2) ^ 2 +
      Real.cos (radians lat1) * Real.cos (radians lat2) *
        Real.sin ((radians lon2 - radians lon1) / 2) ^ 2)))

/-- Python's `round(x, 2)` over the reals. -/
noncomputable def round2R (x : ℝ) : ℝ :=
  ((round (x * 100) : ℤ) : ℝ) / 100

/-- `calculate_fare` (`matcher.py:45`–`47`): base fare 3.0 plus 1.8 per km,
rounded to two decimals. -/
noncomputable def calculate_fare (distance_km : ℝ) : ℝ :=
  round2R (3 + distance_km * 1.8)

/-- The ranking key the source passes to `sorted` (`matcher.py:216`):
great-circle distance from the ride's pickup to the driver. -/
noncomputable def haversineKey (ride : Ride) (d : Driver) : ℝ :=
  _haversine (ride.pickup_lon : ℝ) (ride.pickup_lat : ℝ) (d.lon : ℝ) (d.lat : ℝ)

/-- The real-valued haversine as a distance function on rational
coordinates, usable as the `dist` parameter of `matchRide`. -/
noncomputable def haversineDist : ℚ → ℚ → ℚ → ℚ → ℝ :=
  fun lon1 lat1 lon2 lat2 => _haversine (lon1 : ℝ) (lat1 : ℝ) (lon2 : ℝ) (lat2 : ℝ)

/-! ## The lifecycle order of invariant R1 -/

/-- The legal single commits of invariant R1: a committed status value may
stay put, move forward along REQUESTED → ASSIGNED → EN_ROUTE → COMPLETED, or
diverge terminally REQUESTED → EXPIRED. -/
def statusStepOK : RideStatus → RideStatus → Bool
  | RideStatus.REQUESTED, RideStatus.ASSIGNED => true
  | RideStatus.REQUESTED, RideStatus.EN_ROUTE => true
  | RideStatus.REQUESTED, RideStatus.COMPLETED => true
  | RideStatus.REQUESTED, RideStatus.EXPIRED => true
  | RideStatus.ASSIGNED, RideStatus.EN_ROUTE => true
  | RideStatus.ASSIGNED, RideStatus.COMPLETED => true
  | RideStatus.EN_ROUTE, RideStatus.COMPLETED => true
  | a, b => a = b

/-! ## Helper lemmas -/

theorem round2_nonneg {x : ℚ} (hx : 0 ≤ x) : 0 ≤ round2 x := by
  have hfloor : (0 : ℤ) ≤ round (x * 100) := by
    rw [round_eq]
    exact Int.floor_nonneg.mpr (by linarith)
  have : (0 : ℚ) ≤ ((round (x * 100) : ℤ) : ℚ) := Int.cast_nonneg.mpr hfloor
  unfold round2
  linarith

theorem lookupRow_updateWhere {α : Type} (rows : List (Nat × α)) (key : Nat)
    (g : α → Bool) (f : α → α) :
    lookupRow (updateWhere rows key g f) key =
      (lookupRow rows key).map (fun v => if g v then f v else v) := by
  induction rows with
  | nil => rfl
  | cons p rest ih =>
    by_cases hk : p.1 = key
    · by_cases hg : g p.2
      · simp [updateWhere, lookupRow, List.find?_cons, hk, hg] at *
      · simp [updateWhere, lookupRow, List.find?_cons, hk, hg] at *
    · simpa [updateWhere, lookupRow, List.find?_cons, hk] using ih

theorem lookupRow_cons_self {α : Type} (rows : List (Nat × α)) (key : Nat)
    (v : α) : lookupRow ((key, v) :: rows) key = some v := by
  simp [lookupRow, List.find?_cons]

theorem lookupRow_eq_none_iff {α : Type} (rows : List (Nat × α)) (key : Nat) :
    lookupRow rows key = none ↔ key ∉ rows.map Prod.fst := by
  induction rows with
  | nil => simp [lookupRow]
  | cons p rest ih =>
    by_cases hk : p.1 = key
    · simp [lookupRow, List.find?_cons, hk]
    · simp [lookupRow, List.find?_cons, hk, Ne.symm hk] at *
      exact ih

/-! ## C6 — the scheduler's failure counter -/

/-- C6: in the replay scheduler's tally loop, each worker whose
`future.result()` raises an uncaught error increments the failure counter by
one and each normally returning worker increments the completed counter, so
the reported failed count equals the number of workers that raised an
uncaught error (and the completed count the number that did not). -/
theorem claim_C6_failed_count (l : List WorkerOutcome) :
    (tallyOutcomes l).2 = l.countP WorkerOutcome.isError ∧
    (tallyOutcomes l).1 = l.countP (fun o => !o.isError) := by
  induction l with
  | nil => simp [tallyOutcomes]
  | cons o rest ih =>
    cases o <;>
      simp [tallyOutcomes, List.countP_cons, WorkerOutcome.isError, ih.1, ih.2]

/-! ## C5 — persisting REQUESTED -/

/-- C5 counterexample: the REQUESTED upsert's `ON CONFLICT` branch does not
reset `retries` (a pre-existing row with `retries = 3` keeps them), and the
upsert is executed on a plain auto-commit cursor, not inside `run_txn`. -/
theorem claim_C5_counterexample :
    ((lookupRow (persistRequested
        (⟨[], [(1, ⟨RideStatus.EXPIRED, none, 3, 5⟩)], [], [], false, false⟩ : World)
        (⟨1, 2, 3, 4, 5, 6, 1⟩ : Ride)).rides 1).map (fun r => r.retries) = some 3 ∧
      (lookupRow (persistRequested
        (⟨[], [(1, ⟨RideStatus.EXPIRED, none, 3, 5⟩)], [], [], false, false⟩ : World)
        (⟨1, 2, 3, 4, 5, 6, 1⟩ : Ride)).rides 1).map (fun r => r.retries) ≠ some 0) ∧
    persistRequestedHarness ≠ Harness.runTxn := by
  decide

/-- C5 (amended): before the match loop the worker persists the ride via
`INSERT … ON CONFLICT(ride_id) DO UPDATE`; a fresh insert creates the row as
REQUESTED with `retries = 0`, no assigned driver and the seed's
`requested_at`, while the conflict branch rewrites only `status='REQUESTED'`
and `requested_at` (leaving `retries` and `assigned_driver` untouched); and
the upsert is executed on a plain auto-commit cursor
(`get_cursor(commit=True)`), not inside `run_txn`. -/
theorem claim_C5_persist (w : World) (ride : Ride) :
    (lookupRow w.rides ride.ride_id = none →
      lookupRow (persistRequested w ride).rides ride.ride_id =
        some ⟨RideStatus.REQUESTED, none, 0, ride.requested_at⟩) ∧
    (∀ r, lookupRow w.rides ride.ride_id = some r →
      lookupRow (persistRequested w ride).rides ride.ride_id =
        some { r with status := RideStatus.REQUESTED,
                      requested_at := ride.requested_at }) ∧
    persistRequestedHarness = Harness.plainCursor := by
  refine ⟨fun h => ?_, fun r h => ?_, rfl⟩
  · simp [persistRequested, h, lookupRow_cons_self]
  · simp [persistRequested, h, lookupRow_updateWhere]

/-- Witness for C5 (amended) at a concrete pre-existing row. -/
theorem claim_C5_persist_witness :
    lookupRow (persistRequested
        (⟨[], [(1, ⟨RideStatus.EXPIRED, none, 3, 5⟩)], [], [], false, false⟩ : World)
        (⟨1, 2, 3, 4, 5, 6, 1⟩ : Ride)).rides 1 =
      some ⟨RideStatus.REQUESTED, none, 3, 6⟩ :=
  (claim_C5_persist
      (⟨[], [(1, ⟨RideStatus.EXPIRED, none, 3, 5⟩)], [], [], false, false⟩ : World)
      (⟨1, 2, 3, 4, 5, 6, 1⟩ : Ride)).2.1
    ⟨RideStatus.EXPIRED, none, 3, 5⟩ (by decide)

/-! ## C8 — the metrics throughput -/

/-- C8 counterexample: with baseline `(0, 0)`, one completed ride and a
7-second window, the endpoint reports the two-decimal rounding `8.57`,
not the claim's exact `max(0, (1-0)/(7-0))·60 = 60/7`. -/
theorem claim_C8_counterexample :
    (computeThroughput (some ⟨0, 0⟩) 1 7).1 = 857/100 ∧
    ((857 : ℚ)/100 ≠ max 0 (((1 : ℚ) - 0) / (7 - 0)) * 60) := by
  constructor
  · simp only [computeThroughput]
    norm_num [round2, round_eq]
  · norm_num

/-- C8 (amended): for a sample with an existing baseline: if the completed
count decreased the endpoint reports 0 and resets the baseline to
`(completed, now)`; otherwise it reports
`round₂(max(0, (completed - last)/max(now - last_time, 1/1000)) · 60)`
(the claim's formula with the window clamped below at 1 ms and the result
rounded to two decimals) and advances the baseline exactly when the
completed delta is strictly positive; the reported value is never
negative. -/
theorem claim_C8_throughput (b : MetricsBaseline) (completed : Nat) (now : ℚ) :
    (completed < b.last_completed →
      computeThroughput (some b) completed now = (0, ⟨completed, now⟩)) ∧
    (b.last_completed ≤ completed →
      (computeThroughput (some b) completed now).1 =
        round2 (max 0 (((completed : ℚ) - (b.last_completed : ℚ)) /
          max (now - b.last_time) (1/1000)) * 60) ∧
      (computeThroughput (some b) completed now).2 =
        (if b.last_completed < completed then ⟨completed, now⟩ else b)) ∧
    0 ≤ (computeThroughput (some b) completed now).1 := by
  by_cases hlt : completed < b.last_completed
  · refine ⟨fun _ => ?_, fun hle => absurd hlt (not_lt.mpr hle), ?_⟩
    · simp [computeThroughput, hlt]
    · simp [computeThroughput, hlt]
  · have hle' : b.last_completed ≤ completed := not_lt.mp hlt
    have hΔ : (0 : ℚ) ≤ (completed : ℚ) - (b.last_completed : ℚ) := by
      have := (Nat.cast_le (α := ℚ)).mpr hle'
      linarith
    have hΔtpos : (0 : ℚ) < max (now - b.last_time) (1/1000) :=
      lt_of_lt_of_le (by norm_num) (le_max_right _ _)
    have hraw0 : (0 : ℚ) ≤
        ((completed : ℚ) - (b.last_completed : ℚ)) /
          max (now - b.last_time) (1/1000) * 60 := by
      have := div_nonneg hΔ hΔtpos.le
      linarith
    have hrnd : (0 : ℚ) ≤ round2 (max (((completed : ℚ) - (b.last_completed : ℚ)) /
        max (now - b.last_time) (1/1000) * 60) 0) :=
      round2_nonneg (le_max_right _ _)
    have hunfold : computeThroughput (some b) completed now =
        (round2 (max (((completed : ℚ) - (b.last_completed : ℚ)) /
            max (now - b.last_time) (1/1000) * 60) 0),
         if (0 : ℚ) < (completed : ℚ) - (b.last_completed : ℚ) then
           (⟨completed, now⟩ : MetricsBaseline) else b) := by
      simp only [computeThroughput, if_neg hlt, if_neg (not_lt.mpr hrnd)]
    have hform : max (((completed : ℚ) - (b.last_completed : ℚ)) /
          max (now - b.last_time) (1/1000) * 60) 0 =
        max 0 (((completed : ℚ) - (b.last_completed : ℚ)) /
          max (now - b.last_time) (1/1000)) * 60 := by
      rw [max_mul_of_nonneg _ _ (by norm_num : (0 : ℚ) ≤ 60), zero_mul, max_comm]
    refine ⟨fun h => absurd h hlt, fun _ => ⟨?_, ?_⟩, ?_⟩
    · rw [hunfold]
      exact congrArg round2 hform
    · rw [hunfold]
      have : ((0 : ℚ) < (completed : ℚ) - (b.last_completed : ℚ)) ↔
          b.last_completed < completed := by
        rw [sub_pos, Nat.cast_lt]
      simp only [this]
    · rw [hunfold]
      exact hrnd

/-- Witness for C8 (amended): one completed ride over a 7-second window
reports `8.57`, as the amended formula prescribes. -/
theorem claim_C8_throughput_witness :
    (computeThroughput (some ⟨0, 0⟩) 1 7).1 = 857/100 := by
  have h := ((claim_C8_throughput ⟨0, 0⟩ 1 7).2.1 (by norm_num)).1
  rw [h]
  norm_num [round2, round_eq]

/-! ## C2 — the serializable retry harness -/

theorem runTxnGo_stops {α : Type} (o : Nat → TxnAttempt α) (j : Nat → ℚ)
    (m : Nat) :
    ∀ fuel attempt k, fuel + attempt = m → attempt ≤ k → k < m →
      (∀ i, attempt ≤ i → i < k → o i = TxnAttempt.failure (some "40001")) →
      (∀ v, o k = TxnAttempt.success v →
        runTxnGo o j m fuel attempt =
          (TxnOutcome.ok v,
           (List.range' attempt (k - attempt)).map (fun i => 1/10 * 2^i + j i))) ∧
      (∀ c, o k = TxnAttempt.failure c → ¬(c = some "40001" ∧ k < m - 1) →
        runTxnGo o j m fuel attempt =
          (TxnOutcome.raisedOriginal c,
           (List.range' attempt (k - attempt)).map (fun i => 1/10 * 2^i + j i))) := by
  intro fuel
  induction fuel with
  | zero =>
    intro attempt k hm hak hkm _
    omega
  | succ fuel ih =>
    intro attempt k hm hak hkm hfail
    by_cases hek : attempt = k
    · subst hek
      constructor
      · intro v hv
        simp [runTxnGo, hv, Nat.sub_self]
      · intro c hc hnc
        simp [runTxnGo, hc, if_neg hnc, Nat.sub_self]
    · have hlt : attempt < k := lt_of_le_of_ne hak hek
      have hattempt : o attempt = TxnAttempt.failure (some "40001") :=
        hfail attempt le_rfl hlt
      have hcond : (some "40001" = some "40001" ∧ attempt < m - 1) := by
        refine ⟨rfl, ?_⟩
        omega
      have hrec := ih (attempt + 1) k (by omega) (by omega) hkm
        (fun i hi hik => hfail i (by omega) hik)
      have hrange : List.range' attempt (k - attempt) =
          attempt :: List.range' (attempt + 1) (k - (attempt + 1)) := by
        have : k - attempt = (k - (attempt + 1)) + 1 := by omega
        rw [this, List.range'_succ]
      constructor
      · intro v hv
        have h1 := hrec.1 v hv
        rw [hrange]
        simp only [runTxnGo, hattempt]
        simp [hcond.2, h1]
      · intro c hc hnc
        have h1 := hrec.2 c hc hnc
        rw [hrange]
        simp only [runTxnGo, hattempt]
        simp [hcond.2, h1]

theorem runTxnGo_ne_transactionFailed {α : Type} (o : Nat → TxnAttempt α)
    (j : Nat → ℚ) (m : Nat) :
    ∀ fuel attempt cause n,
      (runTxnGo o j m fuel attempt).1 ≠ TxnOutcome.transactionFailed cause n := by
  intro fuel
  induction fuel with
  | zero =>
    intro attempt cause n h
    exact TxnOutcome.noConfusion h
  | succ fuel ih =>
    intro attempt cause n
    match ho : o attempt with
    | TxnAttempt.success v => simp [runTxnGo, ho]
    | TxnAttempt.failure c =>
      by_cases hc : (c = some "40001" ∧ attempt < m - 1)
      · have := ih (attempt + 1) cause n
        simp [runTxnGo, ho, if_pos hc]
        exact this
      · simp [runTxnGo, ho, if_neg hc]

theorem runTxnGo_sleeps {α : Type} (o : Nat → TxnAttempt α) (j : Nat → ℚ)
    (m : Nat) :
    ∀ fuel attempt, ∀ q ∈ (runTxnGo o j m fuel attempt).2,
      ∃ i, i + 1 < m ∧ q = 1/10 * 2^i + j i := by
  intro fuel
  induction fuel with
  | zero =>
    intro attempt q hq
    simp [runTxnGo] at hq
  | succ fuel ih =>
    intro attempt q hq
    match ho : o attempt with
    | TxnAttempt.success v => simp [runTxnGo, ho] at hq
    | TxnAttempt.failure c =>
      by_cases hc : (c = some "40001" ∧ attempt < m - 1)
      · simp [runTxnGo, ho, if_pos hc] at hq
        rcases hq with hq | hq
        · exact ⟨attempt, by omega, by rw [hq]; norm_num⟩
        · exact ih (attempt + 1) q hq
      · simp [runTxnGo, ho, if_neg hc] at hq

/-- C2 counterexample: a transaction that always fails with the retryable
code `40001` under the default `max_retries = 5` makes `run_txn` re-raise
the ORIGINAL database error; no `TransactionFailed` wrapper carrying cause
and attempt count exists in the source, so the code's outcome differs from
every spec-modelled `transactionFailed` outcome. -/
theorem claim_C2_counterexample :
    (run_txn (fun _ => TxnAttempt.failure (some "40001")) (fun _ => 0) 5 :
        TxnOutcome Nat × List ℚ).1 = TxnOutcome.raisedOriginal (some "40001") ∧
    (∀ cause attempts,
      (TxnOutcome.raisedOriginal (some "40001") : TxnOutcome Nat) ≠
        TxnOutcome.transactionFailed cause attempts) := by
  refine ⟨by decide, fun cause attempts h => TxnOutcome.noConfusion h⟩

/-- C2 (amended): `run_txn(f, max_retries)` calls `f` up to `max_retries`
times in total, retries only when the raised error carries the retryable
code `40001` (and retries remain), sleeping `0.1·2^attempt + jitter`
seconds with `jitter ∈ [0, 0.05]` before each retry (the first attempt is
attempt 0); on success it commits and returns `f`'s value; on a
non-retryable error or after exhausting retries it rolls back and re-raises
the ORIGINAL error (it does not wrap it in a `TransactionFailed` carrying
cause and attempt count). -/
theorem claim_C2_run_txn {α : Type} (outcomes : Nat → TxnAttempt α)
    (jitter : Nat → ℚ) (m : Nat)
    (hj : ∀ i, 0 ≤ jitter i ∧ jitter i ≤ 1/20) :
    (∀ v k, k < m →
      (∀ i, i < k → outcomes i = TxnAttempt.failure (some "40001")) →
      outcomes k = TxnAttempt.success v →
      run_txn outcomes jitter m =
        (TxnOutcome.ok v, (List.range k).map (fun i => 1/10 * 2^i + jitter i))) ∧
    (∀ c k, k < m →
      (∀ i, i < k → outcomes i = TxnAttempt.failure (some "40001")) →
      outcomes k = TxnAttempt.failure c → c ≠ some "40001" →
      run_txn outcomes jitter m =
        (TxnOutcome.raisedOriginal c,
         (List.range k).map (fun i => 1/10 * 2^i + jitter i))) ∧
    (0 < m → (∀ i, i < m → outcomes i = TxnAttempt.failure (some "40001")) →
      run_txn outcomes jitter m =
        (TxnOutcome.raisedOriginal (some "40001"),
         (List.range (m - 1)).map (fun i => 1/10 * 2^i + jitter i))) ∧
    (∀ cause n, (run_txn outcomes jitter m).1 ≠
        TxnOutcome.transactionFailed cause n) ∧
    (∀ q ∈ (run_txn outcomes jitter m).2, ∃ i, i + 1 < m ∧
      q = 1/10 * 2^i + jitter i ∧ 1/10 * 2^i ≤ q ∧ q ≤ 1/10 * 2^i + 1/20) := by
  refine ⟨?_, ?_, ?_, ?_, ?_⟩
  · intro v k hkm hfail hv
    have h := (runTxnGo_stops outcomes jitter m m 0 k (by omega) (Nat.zero_le _)
      hkm (fun i _ hik => hfail i hik)).1 v hv
    rw [run_txn, h, List.range_eq_range']
    simp
  · intro c k hkm hfail hc hne
    have h := (runTxnGo_stops outcomes jitter m m 0 k (by omega) (Nat.zero_le _)
      hkm (fun i _ hik => hfail i hik)).2 c hc (fun hand => hne hand.1)
    rw [run_txn, h, List.range_eq_range']
    simp
  · intro hm hfail
    have h := (runTxnGo_stops outcomes jitter m m 0 (m - 1) (by omega)
      (Nat.zero_le _) (by omega) (fun i _ hik => hfail i (by omega))).2
      (some "40001") (hfail (m - 1) (by omega)) (by omega)
    rw [run_txn, h, List.range_eq_range']
    simp
  · intro cause n
    exact runTxnGo_ne_transactionFailed outcomes jitter m m 0 cause n
  · intro q hq
    obtain ⟨i, him, hqe⟩ := runTxnGo_sleeps outcomes jitter m m 0 q hq
    obtain ⟨hj0, hj1⟩ := hj i
    exact ⟨i, him, hqe, by rw [hqe]; linarith, by rw [hqe]; linarith⟩

/-- Witness for C2 (amended): one retryable conflict then success returns
the value with a single `100 ms` backoff sleep. -/
theorem claim_C2_run_txn_witness :
    run_txn (fun i => if i = 0 then TxnAttempt.failure (some "40001")
        else TxnAttempt.success 42) (fun _ => 0) 5 =
      (TxnOutcome.ok 42, [1/10]) := by
  have h := (claim_C2_run_txn
      (fun i => if i = 0 then TxnAttempt.failure (some "40001")
        else TxnAttempt.success 42)
      (fun _ => 0) 5 (fun i => by norm_num)).1 42 1 (by norm_num)
      (fun i hi => by
        have : i = 0 := by omega
        simp [this])
      (by norm_num)
  rw [h]
  norm_num [List.range_succ]

/-! ## C1 — WHERE guards on status transitions -/

theorem statusStepOK_refl (s : RideStatus) : statusStepOK s s = true := by
  cases s <;> rfl

theorem updateWhere_forall₂ {α : Type} (R : α → α → Prop)
    (rows : List (Nat × α)) (key : Nat) (g : α → Bool) (f : α → α)
    (hrefl : ∀ v, R v v) (hstep : ∀ v, g v = true → R v (f v)) :
    List.Forall₂ (fun p q => R p.2 q.2) rows (updateWhere rows key g f) := by
  induction rows with
  | nil => exact List.Forall₂.nil
  | cons p rest ih =>
    rw [updateWhere, List.map_cons]
    refine List.Forall₂.cons ?_ ih
    by_cases h : p.1 = key ∧ g p.2
    · rw [if_pos h]
      exact hstep p.2 h.2
    · rw [if_neg h]
      exact hrefl p.2

/-- C1 counterexample: the worker's EN_ROUTE update (`replayer.py:130`)
carries no condition on the ride's current state, so executed against a
COMPLETED ride it commits EN_ROUTE — a backward transition that the claimed
monotone order forbids. -/
theorem claim_C1_counterexample :
    enRouteStmt [(1, ⟨RideStatus.COMPLETED, some 7, 0, 0⟩)] 1 =
      [(1, ⟨RideStatus.EN_ROUTE, some 7, 0, 0⟩)] ∧
    statusStepOK RideStatus.COMPLETED RideStatus.EN_ROUTE = false := by
  decide

/-- C1 (amended): only the matcher's assignment update and the worker's
retries/EXPIRED updates carry WHERE clauses conditional on the ride's
current state (`status='REQUESTED'`, and for the worker also
`assigned_driver IS NULL`), and those guarded updates can only commit legal
forward steps of the REQUESTED → ASSIGNED → EN_ROUTE → COMPLETED /
REQUESTED → EXPIRED order; the worker's post-match ASSIGNED confirmation,
its EN_ROUTE update, and the completion's COMPLETED update are conditioned
on `ride_id` alone and rewrite the status whatever its current value, so
monotonicity of the committed sequence rests on the worker's serial control
flow, not on WHERE guards. -/
theorem claim_C1_guards :
    (∀ (rides : List (Nat × RideRow)) (rid : Nat),
      List.Forall₂ (fun p q => statusStepOK p.2.status q.2.status = true)
        rides (expireStmt rides rid) ∧
      List.Forall₂ (fun p q => statusStepOK p.2.status q.2.status = true)
        rides (bumpRetriesStmt rides rid)) ∧
    (∀ (w : World) (ride : Ride) (acquired : Nat),
      List.Forall₂ (fun p q => statusStepOK p.2.status q.2.status = true)
        w.rides (assignTxn w ride acquired).2.rides) ∧
    (∀ (r : RideRow) (rid : Nat),
      lookupRow (markAssignedStmt [(rid, r)] rid) rid =
        some { r with status := RideStatus.ASSIGNED, retries := 0 } ∧
      lookupRow (enRouteStmt [(rid, r)] rid) rid =
        some { r with status := RideStatus.EN_ROUTE, retries := 0 } ∧
      lookupRow (completeStmt [(rid, r)] rid) rid =
        some { r with status := RideStatus.COMPLETED, retries := 0 }) := by
  refine ⟨fun rides rid => ⟨?_, ?_⟩, fun w ride acquired => ?_, fun r rid => ?_⟩
  · unfold expireStmt
    refine updateWhere_forall₂
      (fun v u => statusStepOK v.status u.status = true) rides rid _ _
      (fun v => statusStepOK_refl v.status) (fun v hv => ?_)
    have hreq : v.status = RideStatus.REQUESTED := by
      simp only [decide_eq_true_eq, Bool.and_eq_true] at hv
      exact hv.2
    simp [hreq, statusStepOK]
  · unfold bumpRetriesStmt
    exact updateWhere_forall₂
      (fun v u => statusStepOK v.status u.status = true) rides rid
      (fun r => r.assigned_driver = none ∧ r.status = RideStatus.REQUESTED)
      (fun r => { r with retries := r.retries + 1 })
      (fun v => statusStepOK_refl v.status) (fun v _ => statusStepOK_refl v.status)
  · unfold assignTxn
    match hfd : findDriver w.drivers acquired with
    | none =>
      simp only [hfd]
      exact (List.forall₂_same).mpr (fun p _ => statusStepOK_refl p.2.status)
    | some row =>
      by_cases hav : row.status = DriverStatus.AVAILABLE
      · simp only [hfd, if_pos hav]
        refine updateWhere_forall₂
          (fun v u => statusStepOK v.status u.status = true) w.rides ride.ride_id _ _
          (fun v => statusStepOK_refl v.status) (fun v hv => ?_)
        have hreq : v.status = RideStatus.REQUESTED := by
          simpa using hv
        simp [hreq, statusStepOK]
      · simp only [hfd, if_neg hav]
        exact (List.forall₂_same).mpr (fun p _ => statusStepOK_refl p.2.status)
  · refine ⟨?_, ?_, ?_⟩ <;>
      simp [markAssignedStmt, enRouteStmt, completeStmt, updateWhere, lookupRow]

/-! ## Sorting and acquisition lemmas for the matcher -/

theorem insertByKey_perm {α β : Type} [LinearOrder β] (key : α → β) (a : α)
    (l : List α) : List.Perm (insertByKey key a l) (a :: l) := by
  induction l with
  | nil => exact List.Perm.refl _
  | cons b bs ih =>
    rw [insertByKey]
    by_cases h : key b ≤ key a
    · rw [if_pos h]
      exact (ih.cons b).trans (List.Perm.swap a b bs)
    · rw [if_neg h]

theorem sortByKey_perm {α β : Type} [LinearOrder β] (key : α → β)
    (l : List α) : List.Perm (sortByKey key l) l := by
  induction l with
  | nil => exact List.Perm.refl _
  | cons a as_ ih =>
    rw [sortByKey]
    exact (insertByKey_perm key a _).trans (ih.cons a)

theorem sorted_insertByKey {α β : Type} [LinearOrder β] (key : α → β) (a : α)
    (l : List α) (h : l.Sorted (fun x y => key x ≤ key y)) :
    (insertByKey key a l).Sorted (fun x y => key x ≤ key y) := by
  induction l with
  | nil => simp [insertByKey]
  | cons b bs ih =>
    rw [List.sorted_cons] at h
    rw [insertByKey]
    by_cases hba : key b ≤ key a
    · rw [if_pos hba]
      rw [List.sorted_cons]
      refine ⟨fun y hy => ?_, ih h.2⟩
      have hy' : y ∈ a :: bs := (insertByKey_perm key a bs).subset hy
      rcases List.mem_cons.mp hy' with rfl | hybs
      · exact hba
      · exact h.1 y hybs
    · rw [if_neg hba]
      have hab : key a ≤ key b := le_of_not_le hba
      rw [List.sorted_cons]
      refine ⟨fun y hy => ?_, List.sorted_cons.mpr h⟩
      rcases List.mem_cons.mp hy with rfl | hybs
      · exact hab
      · exact hab.trans (h.1 y hybs)

theorem sorted_sortByKey {α β : Type} [LinearOrder β] (key : α → β)
    (l : List α) : (sortByKey key l).Sorted (fun x y => key x ≤ key y) := by
  induction l with
  | nil => simp [sortByKey]
  | cons a as_ ih => exact sorted_insertByKey key a _ ih

theorem acquireFirst_some (busy : List Nat) :
    ∀ (l : List Driver) (d : Nat) (b' : List Nat),
      acquireFirst busy l = (some d, b') →
      b' = d :: busy ∧ d ∉ busy ∧ ∃ e ∈ l, e.driver_id = d := by
  intro l
  induction l with
  | nil =>
    intro d b' h
    simp [acquireFirst] at h
  | cons e rest ih =>
    intro d b' h
    by_cases hmem : e.driver_id ∈ busy
    · simp only [acquireFirst, try_acquire_driver, sadd, if_pos hmem] at h
      obtain ⟨h1, h2, e', he', hid⟩ := ih d b' h
      exact ⟨h1, h2, e', List.mem_cons_of_mem _ he', hid⟩
    · simp only [acquireFirst, try_acquire_driver, sadd, if_neg hmem,
        Prod.mk.injEq, Option.some.injEq] at h
      refine ⟨by rw [← h.1]; exact h.2.symm, by rw [← h.1]; exact hmem, ?_⟩
      exact ⟨e, List.mem_cons_self e rest, h.1⟩

theorem acquireFirst_cons_of_notmem (busy : List Nat) (e : Driver)
    (rest : List Driver) (h : e.driver_id ∉ busy) :
    acquireFirst busy (e :: rest) = (some e.driver_id, e.driver_id :: busy) := by
  simp [acquireFirst, try_acquire_driver, sadd, if_neg h]

theorem acquireFirst_fst_eq_find (busy : List Nat) :
    ∀ l : List Driver,
      (acquireFirst busy l).1 =
        (l.find? (fun d => d.driver_id ∉ busy)).map Driver.driver_id := by
  intro l
  induction l with
  | nil => simp [acquireFirst]
  | cons e rest ih =>
    by_cases hmem : e.driver_id ∈ busy
    · have hdec : (decide (e.driver_id ∉ busy)) = false := by
        simp [hmem]
      simp only [acquireFirst, try_acquire_driver, sadd, if_pos hmem,
        List.find?_cons, hdec]
      exact ih
    · have hdec : (decide (e.driver_id ∉ busy)) = true := by
        simp [hmem]
      simp only [acquireFirst, try_acquire_driver, sadd, if_neg hmem,
        List.find?_cons, hdec]
      rfl

theorem findDriver_eq_self_of_nodup :
    ∀ (l : List Driver) (d : Driver), d ∈ l →
      (l.map Driver.driver_id).Nodup → findDriver l d.driver_id = some d := by
  intro l
  induction l with
  | nil =>
    intro d hd
    cases hd
  | cons e rest ih =>
    intro d hd hnd
    rw [List.map_cons, List.nodup_cons] at hnd
    by_cases h : e.driver_id = d.driver_id
    · have hde : d = e := by
        rcases List.mem_cons.mp hd with rfl | hdr
        · rfl
        · exact absurd (h ▸ List.mem_map_of_mem Driver.driver_id hdr) hnd.1
      subst hde
      simp [findDriver, List.find?_cons]
    · have hdr : d ∈ rest := by
        rcases List.mem_cons.mp hd with rfl | hdr
        · exact absurd rfl h
        · exact hdr
      have hrec := ih d hdr hnd.2
      rw [findDriver] at hrec
      rw [findDriver, List.find?_cons]
      simp [h, hrec]

/-- The world committed by a successful `match_ride`: the acquired driver
held in the busy-set and set to `MATCHING` at the pickup, the ride row
conditionally assigned.  Proved in `matchRide_spec` to be the exact effect
of the success path of `matchRide`. -/
def matchedWorld (w : World) (ride : Ride) (d : Nat) : World :=
  { w with
    drivers := updateDriver w.drivers d
      (fun dr => { dr with status := DriverStatus.MATCHING,
                           lon := ride.pickup_lon, lat := ride.pickup_lat }),
    rides := updateWhere w.rides ride.ride_id
      (fun r => r.status = RideStatus.REQUESTED)
      (fun r => { r with assigned_driver := some d,
                         status := RideStatus.ASSIGNED, retries := 0 }),
    busy := d :: w.busy }

/-- Master case split for `matchRide`: either it reports NONE and leaves the
world untouched, or it returns a candidate's id and commits exactly
`matchedWorld`. -/
theorem matchRide_spec {β : Type} [LinearOrder β] (dist : ℚ → ℚ → ℚ → ℚ → β)
    (w : World) (ride : Ride) :
    ((matchRide dist w ride).1 = none ∧ (matchRide dist w ride).2 = w) ∨
    (∃ e, e ∈ candidateQuery w.drivers w.busy ∧
      matchRide dist w ride = (some e.driver_id, matchedWorld w ride e.driver_id) ∧
      w.fetchFails = false ∧ w.txnFails = false ∧ e.driver_id ∉ w.busy ∧
      ∃ row, findDriver w.drivers e.driver_id = some row ∧
        row.status = DriverStatus.AVAILABLE) := by
  by_cases hf : w.fetchFails
  · left
    simp [matchRide, hf]
  · by_cases hc : candidateQuery w.drivers w.busy = []
    · left
      simp [matchRide, hf, hc]
    · match hacq : acquireFirst w.busy (nearestOf
          (fun d => dist ride.pickup_lon ride.pickup_lat d.lon d.lat)
          (candidateQuery w.drivers w.busy)) with
      | (none, b) =>
        left
        simp [matchRide, hf, hc, hacq]
      | (some acquired, busy') =>
        obtain ⟨hb', hnm, e, he, hid⟩ := acquireFirst_some _ _ _ _ hacq
        have hecand : e ∈ candidateQuery w.drivers w.busy := by
          have h1 : e ∈ sortByKey
              (fun d => dist ride.pickup_lon ride.pickup_lat d.lon d.lat)
              (candidateQuery w.drivers w.busy) :=
            List.take_subset _ _ he
          exact (sortByKey_perm _ _).subset h1
        by_cases ht : w.txnFails
        · left
          constructor
          · simp [matchRide, hf, hc, hacq, ht]
          · simp only [matchRide, if_neg hf, if_neg hc, hacq, if_pos ht]
            rw [hb']
            simp [release_driver, srem]
        · match hfd : findDriver w.drivers acquired with
          | none =>
            left
            constructor
            · simp [matchRide, hf, hc, hacq, ht, assignTxn, hfd]
            · simp only [matchRide, if_neg hf, if_neg hc, hacq, if_neg ht,
                assignTxn, hfd]
              rw [hb']
              simp [release_driver, srem]
          | some row =>
            by_cases hav : row.status = DriverStatus.AVAILABLE
            · right
              refine ⟨e, hecand, ?_, by simpa using hf, by simpa using ht,
                hid ▸ hnm, row, hid ▸ hfd, hav⟩
              simp only [matchRide, if_neg hf, if_neg hc, hacq, if_neg ht,
                assignTxn, hfd, if_pos hav]
              rw [hb', hid]
              rfl
            · left
              constructor
              · simp [matchRide, hf, hc, hacq, ht, assignTxn, hfd, hav]
              · simp only [matchRide, if_neg hf, if_neg hc, hacq, if_neg ht,
                  assignTxn, hfd, if_neg hav]
                rw [hb']
                simp [release_driver, srem]

/-! ## C3 — mandatory release on a failed assignment -/

/-- C3: whenever `try_acquire` on a driver succeeded but the assignment
transaction returned NONE or raised, the driver is released before
`match_ride` returns NONE — formally, a NONE result always leaves the whole
world, and in particular the busy-set, exactly as it was, so the busy-set
never retains a driver whose assignment transaction did not commit. -/
theorem claim_C3_release {β : Type} [LinearOrder β] (dist : ℚ → ℚ → ℚ → ℚ → β)
    (w : World) (ride : Ride) (h : (matchRide dist w ride).1 = none) :
    (matchRide dist w ride).2 = w ∧ (matchRide dist w ride).2.busy = w.busy := by
  rcases matchRide_spec dist w ride with ⟨_, h2⟩ | ⟨e, _, heq, _⟩
  · exact ⟨h2, by rw [h2]⟩
  · rw [heq] at h
    exact absurd h (by simp)

/-- Witness for C3: one available driver, an assignment transaction that
raises; the driver is acquired, then released, and the world is returned
untouched. -/
theorem claim_C3_release_witness :
    (matchRide (fun _ _ _ _ => (0 : ℚ))
        (⟨[⟨7, 0, 0, DriverStatus.AVAILABLE⟩], [], [], [], false, true⟩ : World)
        ⟨1, 0, 0, 0, 0, 0, 1⟩).2 =
      (⟨[⟨7, 0, 0, DriverStatus.AVAILABLE⟩], [], [], [], false, true⟩ : World) :=
  (claim_C3_release (fun _ _ _ _ => (0 : ℚ))
      (⟨[⟨7, 0, 0, DriverStatus.AVAILABLE⟩], [], [], [], false, true⟩ : World)
      ⟨1, 0, 0, 0, 0, 0, 1⟩ (by decide)).1

/-! ## C10 — totality of match_ride -/

/-- C10: `match_ride` is total at its interface: it returns either a driver
id or NONE and never propagates an exception — a failure while fetching
candidates returns NONE with the world untouched, and a failure of the
assignment transaction yields NONE with the acquired driver released (the
busy-set restored) rather than raising. -/
theorem claim_C10_total {β : Type} [LinearOrder β] (dist : ℚ → ℚ → ℚ → ℚ → β)
    (w : World) (ride : Ride) :
    ((matchRide dist w ride).1 = none ∨
      ∃ d, (matchRide dist w ride).1 = some d) ∧
    (w.fetchFails = true → matchRide dist w ride = (none, w)) ∧
    (w.txnFails = true → (matchRide dist w ride).1 = none ∧
      (matchRide dist w ride).2.busy = w.busy) := by
  refine ⟨?_, fun hf => ?_, fun ht => ?_⟩
  · match (matchRide dist w ride).1 with
    | none => exact Or.inl rfl
    | some d => exact Or.inr ⟨d, rfl⟩
  · simp [matchRide, hf]
  · rcases matchRide_spec dist w ride with ⟨h1, h2⟩ | ⟨e, _, _, _, htf, _⟩
    · exact ⟨h1, by rw [h2]⟩
    · rw [htf] at ht
      exact absurd ht (by simp)

/-- Witness for C10: with a raising assignment transaction, `match_ride`
reports NONE and the busy-set is restored to empty. -/
theorem claim_C10_total_witness :
    (matchRide (fun _ _ _ _ => (0 : ℚ))
        (⟨[⟨3, 0, 0, DriverStatus.AVAILABLE⟩], [], [], [], false, true⟩ : World)
        ⟨2, 0, 0, 0, 0, 0, 1⟩).1 = none ∧
    (matchRide (fun _ _ _ _ => (0 : ℚ))
        (⟨[⟨3, 0, 0, DriverStatus.AVAILABLE⟩], [], [], [], false, true⟩ : World)
        ⟨2, 0, 0, 0, 0, 0, 1⟩).2.busy = [] :=
  (claim_C10_total (fun _ _ _ _ => (0 : ℚ))
      (⟨[⟨3, 0, 0, DriverStatus.AVAILABLE⟩], [], [], [], false, true⟩ : World)
      ⟨2, 0, 0, 0, 0, 0, 1⟩).2.2 rfl

/-! ## C4 — candidate selection and ranking -/

theorem candidateQuery_mem {drivers : List Driver} {busy : List Nat}
    {d : Driver} (h : d ∈ candidateQuery drivers busy) :
    d ∈ drivers ∧ d.status = DriverStatus.AVAILABLE ∧ d.driver_id ∉ busy := by
  have h1 : d ∈ drivers.filter
      (fun d => d.status = DriverStatus.AVAILABLE ∧ d.driver_id ∉ busy) :=
    List.take_subset _ _ h
  have h2 := List.of_mem_filter h1
  refine ⟨List.mem_of_mem_filter h1, ?_⟩
  simpa using h2

theorem matchRide_fst_find {β : Type} [LinearOrder β] (dist : ℚ → ℚ → ℚ → ℚ → β)
    (w : World) (ride : Ride)
    (hf : w.fetchFails = false) (ht : w.txnFails = false)
    (hn : (w.drivers.map Driver.driver_id).Nodup) :
    (matchRide dist w ride).1 =
      ((nearestOf (fun d => dist ride.pickup_lon ride.pickup_lat d.lon d.lat)
          (candidateQuery w.drivers w.busy)).find?
        (fun d => d.driver_id ∉ w.busy)).map Driver.driver_id := by
  have hf' : ¬w.fetchFails = true := by simp [hf]
  by_cases hc : candidateQuery w.drivers w.busy = []
  · simp [matchRide, hf', hc, nearestOf, sortByKey]
  · have ht' : ¬w.txnFails = true := by simp [ht]
    rw [← acquireFirst_fst_eq_find]
    match hacq : acquireFirst w.busy (nearestOf
        (fun d => dist ride.pickup_lon ride.pickup_lat d.lon d.lat)
        (candidateQuery w.drivers w.busy)) with
    | (none, b) =>
      simp [matchRide, hf', hc, hacq]
    | (some acquired, busy') =>
      obtain ⟨hb', hnm, e, he, hid⟩ := acquireFirst_some _ _ _ _ hacq
      have hecand : e ∈ candidateQuery w.drivers w.busy :=
        (sortByKey_perm _ _).subset (List.take_subset _ _ he)
      obtain ⟨hmem, hav, _⟩ := candidateQuery_mem hecand
      have hfd : findDriver w.drivers acquired = some e := by
        rw [← hid]
        exact findDriver_eq_self_of_nodup w.drivers e hmem hn
      simp [matchRide, hf', hc, hacq, ht', assignTxn, hfd, hav]

/-- C4: under a healthy fetch and transaction and a well-keyed drivers
table, `match_ride` determines its acquired candidate exactly as claimed:
the candidate read returns at most 50 AVAILABLE drivers outside the busy-set
snapshot; they are ranked by great-circle distance to the pickup
(a sorted permutation) and the top `MAX_NEAREST_DRIVERS` (which lies between
5 and 10) are kept; the result is the first ranked candidate whose
`try_acquire` succeeds (its id is outside the busy-set), and NONE when the
candidate list is empty or no acquisition succeeds. -/
theorem claim_C4_candidates (w : World) (ride : Ride)
    (hf : w.fetchFails = false) (ht : w.txnFails = false)
    (hn : (w.drivers.map Driver.driver_id).Nodup) :
    (5 ≤ MAX_NEAREST_DRIVERS ∧ MAX_NEAREST_DRIVERS ≤ 10) ∧
    ((candidateQuery w.drivers w.busy).length ≤ 50 ∧
      ∀ d ∈ candidateQuery w.drivers w.busy, d ∈ w.drivers ∧
        d.status = DriverStatus.AVAILABLE ∧ d.driver_id ∉ w.busy) ∧
    (List.Perm (sortByKey (haversineKey ride) (candidateQuery w.drivers w.busy))
        (candidateQuery w.drivers w.busy) ∧
      (sortByKey (haversineKey ride) (candidateQuery w.drivers w.busy)).Sorted
        (fun a b => haversineKey ride a ≤ haversineKey ride b) ∧
      (nearestOf (haversineKey ride) (candidateQuery w.drivers w.busy)).length ≤
        MAX_NEAREST_DRIVERS) ∧
    (matchRide haversineDist w ride).1 =
      ((nearestOf (haversineKey ride) (candidateQuery w.drivers w.busy)).find?
        (fun d => d.driver_id ∉ w.busy)).map Driver.driver_id := by
  refine ⟨⟨by norm_num [MAX_NEAREST_DRIVERS], by norm_num [MAX_NEAREST_DRIVERS]⟩,
    ⟨?_, fun d hd => candidateQuery_mem hd⟩,
    ⟨sortByKey_perm _ _, sorted_sortByKey _ _, ?_⟩, ?_⟩
  · exact List.length_take_le 50 _
  · simp [nearestOf]
  · exact matchRide_fst_find haversineDist w ride hf ht hn

/-- Witness for C4: a single available driver is ranked and acquired. -/
theorem claim_C4_candidates_witness :
    (matchRide haversineDist
        (⟨[⟨9, 1, 1, DriverStatus.AVAILABLE⟩], [], [], [], false, false⟩ : World)
        ⟨4, 0, 0, 2, 2, 0, 1⟩).1 =
      ((nearestOf (haversineKey ⟨4, 0, 0, 2, 2, 0, 1⟩)
          (candidateQuery [⟨9, 1, 1, DriverStatus.AVAILABLE⟩] [])).find?
        (fun d => d.driver_id ∉ ([] : List Nat))).map
        Driver.driver_id :=
  (claim_C4_candidates
      (⟨[⟨9, 1, 1, DriverStatus.AVAILABLE⟩], [], [], [], false, false⟩ : World)
      ⟨4, 0, 0, 2, 2, 0, 1⟩ rfl rfl (by decide)).2.2.2

/-! ## C7 — serial idempotence of the worker -/

/-- The pure decision part of `matchRide`: which driver id (if any) the
matcher commits, as a function of the driver table, the busy-set and the two
fault flags only.  Proved equal to `(matchRide _ w ride).1` below; its point
is that the decision never reads the rides or trips tables. -/
def matchDecision {β : Type} [LinearOrder β] (dist : ℚ → ℚ → ℚ → ℚ → β)
    (drivers : List Driver) (busy : List Nat) (fetchFails txnFails : Bool)
    (ride : Ride) : Option Nat :=
  if fetchFails then none
  else
    let candidates := candidateQuery drivers busy
    if candidates = [] then none
    else
      match acquireFirst busy (nearestOf
          (fun d => dist ride.pickup_lon ride.pickup_lat d.lon d.lat)
          candidates) with
      | (none, _) => none
      | (some acquired, _) =>
        if txnFails then none
        else
          match findDriver drivers acquired with
          | none => none
          | some row =>
            if row.status = DriverStatus.AVAILABLE then some acquired else none

theorem matchRide_fst_decision {β : Type} [LinearOrder β]
    (dist : ℚ → ℚ → ℚ → ℚ → β) (w : World) (ride : Ride) :
    (matchRide dist w ride).1 =
      matchDecision dist w.drivers w.busy w.fetchFails w.txnFails ride := by
  by_cases hf : w.fetchFails
  · simp [matchRide, matchDecision, hf]
  · by_cases hc : candidateQuery w.drivers w.busy = []
    · simp [matchRide, matchDecision, hf, hc]
    · match hacq : acquireFirst w.busy (nearestOf
          (fun d => dist ride.pickup_lon ride.pickup_lat d.lon d.lat)
          (candidateQuery w.drivers w.busy)) with
      | (none, b) => simp [matchRide, matchDecision, hf, hc, hacq]
      | (some acquired, busy') =>
        by_cases ht : w.txnFails
        · simp [matchRide, matchDecision, hf, hc, hacq, ht]
        · match hfd : findDriver w.drivers acquired with
          | none => simp [matchRide, matchDecision, hf, hc, hacq, ht, assignTxn, hfd]
          | some row =>
            by_cases hav : row.status = DriverStatus.AVAILABLE
            · simp [matchRide, matchDecision, hf, hc, hacq, ht, assignTxn, hfd, hav]
            · simp [matchRide, matchDecision, hf, hc, hacq, ht, assignTxn, hfd, hav]

theorem findDriver_updateDriver (l : List Driver) (id : Nat)
    (f : Driver → Driver) (hid : ∀ d, (f d).driver_id = d.driver_id)
    (key : Nat) :
    findDriver (updateDriver l id f) key =
      (findDriver l key).map (fun d => if d.driver_id = id then f d else d) := by
  unfold findDriver updateDriver
  rw [List.find?_map]
  have hp : ((fun d => decide (d.driver_id = key)) ∘
      (fun d => if d.driver_id = id then f d else d)) =
      (fun d : Driver => decide (d.driver_id = key)) := by
    funext a
    by_cases ha : a.driver_id = id
    · simp [Function.comp, ha, hid a]
    · simp [Function.comp, ha]
  rw [hp]

theorem updateDriver_map_driver_id (l : List Driver) (id : Nat)
    (f : Driver → Driver) (hid : ∀ d, (f d).driver_id = d.driver_id) :
    (updateDriver l id f).map Driver.driver_id = l.map Driver.driver_id := by
  induction l with
  | nil => rfl
  | cons e rest ih =>
    by_cases he : e.driver_id = id
    · simp only [updateDriver, List.map_cons, if_pos he, hid e]
      simp only [updateDriver] at ih
      rw [ih]
    · simp only [updateDriver, List.map_cons, if_neg he]
      simp only [updateDriver] at ih
      rw [ih]

theorem persistRequested_parts (w : World) (ride : Ride) :
    (persistRequested w ride).drivers = w.drivers ∧
    (persistRequested w ride).trips = w.trips ∧
    (persistRequested w ride).busy = w.busy ∧
    (persistRequested w ride).fetchFails = w.fetchFails ∧
    (persistRequested w ride).txnFails = w.txnFails := by
  unfold persistRequested
  match lookupRow w.rides ride.ride_id with
  | none => exact ⟨rfl, rfl, rfl, rfl, rfl⟩
  | some _ => exact ⟨rfl, rfl, rfl, rfl, rfl⟩

theorem persistRequested_lookup (w : World) (ride : Ride) :
    lookupRow (persistRequested w ride).rides ride.ride_id =
      some (match lookupRow w.rides ride.ride_id with
        | none => (⟨RideStatus.REQUESTED, none, 0, ride.requested_at⟩ : RideRow)
        | some r => { r with status := RideStatus.REQUESTED,
                             requested_at := ride.requested_at }) := by
  match h : lookupRow w.rides ride.ride_id with
  | none =>
    unfold persistRequested
    rw [h]
    exact lookupRow_cons_self _ _ _
  | some r =>
    unfold persistRequested
    rw [h, lookupRow_updateWhere, h]
    rfl

theorem matchRide_isSome {β : Type} [LinearOrder β]
    (dist : ℚ → ℚ → ℚ → ℚ → β) (w : World) (ride : Ride)
    (hf : w.fetchFails = false) (ht : w.txnFails = false)
    (hn : (w.drivers.map Driver.driver_id).Nodup)
    (d0 : Driver) (hd0 : d0 ∈ w.drivers)
    (hav0 : d0.status = DriverStatus.AVAILABLE)
    (hb0 : d0.driver_id ∉ w.busy) :
    ∃ dd, (matchRide dist w ride).1 = some dd := by
  rw [matchRide_fst_find dist w ride hf ht hn]
  have hmem : d0 ∈ w.drivers.filter
      (fun d => d.status = DriverStatus.AVAILABLE ∧ d.driver_id ∉ w.busy) :=
    List.mem_filter.mpr ⟨hd0, by simp [hav0, hb0]⟩
  have hcne : candidateQuery w.drivers w.busy ≠ [] := by
    rw [candidateQuery]
    intro h
    rcases List.take_eq_nil_iff.mp h with h50 | hnil
    · exact absurd h50 (by norm_num)
    · rw [hnil] at hmem
      cases hmem
  have hsne : sortByKey (fun d => dist ride.pickup_lon ride.pickup_lat d.lon d.lat)
      (candidateQuery w.drivers w.busy) ≠ [] := by
    intro h
    apply hcne
    have := (sortByKey_perm
      (fun d => dist ride.pickup_lon ride.pickup_lat d.lon d.lat)
      (candidateQuery w.drivers w.busy)).length_eq
    rw [h] at this
    exact List.eq_nil_of_length_eq_zero this.symm
  have hnne : nearestOf (fun d => dist ride.pickup_lon ride.pickup_lat d.lon d.lat)
      (candidateQuery w.drivers w.busy) ≠ [] := by
    rw [nearestOf]
    intro h
    rcases List.take_eq_nil_iff.mp h with h10 | hnil
    · exact absurd h10 (by norm_num [MAX_NEAREST_DRIVERS])
    · exact hsne hnil
  obtain ⟨e, rest, hcons⟩ := List.exists_cons_of_ne_nil hnne
  have hecand : e ∈ candidateQuery w.drivers w.busy := by
    have : e ∈ nearestOf (fun d => dist ride.pickup_lon ride.pickup_lat d.lon d.lat)
        (candidateQuery w.drivers w.busy) := by
      rw [hcons]
      exact List.mem_cons_self e rest
    exact (sortByKey_perm _ _).subset (List.take_subset _ _ this)
  obtain ⟨_, _, hbusy⟩ := candidateQuery_mem hecand
  refine ⟨e.driver_id, ?_⟩
  rw [hcons, List.find?_cons_of_pos _ (by simpa using hbusy)]
  rfl

theorem processRide_none_eq {β : Type} [LinearOrder β]
    (dist : ℚ → ℚ → ℚ → ℚ → β) (w : World) (ride : Ride)
    (hm : (matchRide dist (persistRequested w ride) ride).1 = none) :
    processRide dist w ride =
      { persistRequested w ride with
        rides := expireStmt (bumpRetriesStmt (persistRequested w ride).rides
          ride.ride_id) ride.ride_id } := by
  have h2 : matchRide dist (persistRequested w ride) ride =
      (none, persistRequested w ride) := by
    rcases matchRide_spec dist (persistRequested w ride) ride with
      ⟨h1, hw⟩ | ⟨e, _, heq, _⟩
    · exact Prod.ext h1 hw
    · rw [heq] at hm
      simp at hm
  simp only [processRide, h2]

theorem processRide_some_eq {β : Type} [LinearOrder β]
    (dist : ℚ → ℚ → ℚ → ℚ → β) (w : World) (ride : Ride) (dd : Nat)
    (hm : matchRide dist (persistRequested w ride) ride =
      (some dd, matchedWorld (persistRequested w ride) ride dd)) :
    processRide dist w ride =
      completeRide
        { matchedWorld (persistRequested w ride) ride dd with
          rides := enRouteStmt (markAssignedStmt
            (matchedWorld (persistRequested w ride) ride dd).rides ride.ride_id)
            ride.ride_id }
        ride dd := by
  simp only [processRide, hm]

theorem terminalTriple_nonePath {β : Type} [LinearOrder β]
    (dist : ℚ → ℚ → ℚ → ℚ → β) (w : World) (ride : Ride)
    (hm : (matchRide dist (persistRequested w ride) ride).1 = none) :
    terminalTriple (processRide dist w ride) ride.ride_id =
      (some (if (lookupRow w.rides ride.ride_id).bind RideRow.assigned_driver
            = none
          then RideStatus.EXPIRED else RideStatus.REQUESTED),
       (lookupRow w.trips ride.ride_id).map (fun _ => ride.ride_id),
       ((lookupRow w.rides ride.ride_id).bind RideRow.assigned_driver).bind
         (fun x => (findDriver w.drivers x).map Driver.status)) := by
  rw [processRide_none_eq dist w ride hm]
  obtain ⟨hd, htr, _, _, _⟩ := persistRequested_parts w ride
  have hl1 := persistRequested_lookup w ride
  match ha : lookupRow w.rides ride.ride_id with
  | none =>
    rw [ha] at hl1
    have hlook : lookupRow (expireStmt (bumpRetriesStmt
        (persistRequested w ride).rides ride.ride_id) ride.ride_id)
        ride.ride_id =
        some ⟨RideStatus.EXPIRED, none, 1, ride.requested_at⟩ := by
      rw [expireStmt, bumpRetriesStmt, lookupRow_updateWhere,
        lookupRow_updateWhere, hl1]
      rfl
    simp [terminalTriple, hlook, htr, hd]
  | some r =>
    rw [ha] at hl1
    match har : r.assigned_driver with
    | none =>
      have hlook : lookupRow (expireStmt (bumpRetriesStmt
          (persistRequested w ride).rides ride.ride_id) ride.ride_id)
          ride.ride_id =
          some ⟨RideStatus.EXPIRED, none, r.retries + 1, ride.requested_at⟩ := by
        rw [expireStmt, bumpRetriesStmt, lookupRow_updateWhere,
          lookupRow_updateWhere, hl1]
        simp [har]
      simp [terminalTriple, hlook, htr, hd, har]
    | some x =>
      have hlook : lookupRow (expireStmt (bumpRetriesStmt
          (persistRequested w ride).rides ride.ride_id) ride.ride_id)
          ride.ride_id =
          some ⟨RideStatus.REQUESTED, some x, r.retries, ride.requested_at⟩ := by
        rw [expireStmt, bumpRetriesStmt, lookupRow_updateWhere,
          lookupRow_updateWhere, hl1]
        simp [har]
      simp [terminalTriple, hlook, htr, hd, har]

theorem terminalTriple_somePath {β : Type} [LinearOrder β]
    (dist : ℚ → ℚ → ℚ → ℚ → β) (w : World) (ride : Ride) (dd : Nat)
    (hm : matchRide dist (persistRequested w ride) ride =
      (some dd, matchedWorld (persistRequested w ride) ride dd))
    (row : Driver) (hfd : findDriver w.drivers dd = some row) :
    terminalTriple (processRide dist w ride) ride.ride_id =
      (some RideStatus.COMPLETED, some ride.ride_id,
       some DriverStatus.AVAILABLE) := by
  rw [processRide_some_eq dist w ride dd hm]
  obtain ⟨hd, htr, _, _, _⟩ := persistRequested_parts w ride
  have hl1 := persistRequested_lookup w ride
  have hex : ∃ r1 : RideRow,
      lookupRow (persistRequested w ride).rides ride.ride_id = some r1 ∧
      r1.status = RideStatus.REQUESTED := by
    refine ⟨_, hl1, ?_⟩
    cases hc : lookupRow w.rides ride.ride_id <;> rfl
  obtain ⟨r1, hl1', hst⟩ := hex
  have h1 : lookupRow (matchedWorld (persistRequested w ride) ride dd).rides
      ride.ride_id =
      some ⟨RideStatus.ASSIGNED, some dd, 0, r1.requested_at⟩ := by
    simp only [matchedWorld]
    rw [lookupRow_updateWhere, hl1']
    simp [hst]
  have h2 : lookupRow (markAssignedStmt
      (matchedWorld (persistRequested w ride) ride dd).rides ride.ride_id)
      ride.ride_id =
      some ⟨RideStatus.ASSIGNED, some dd, 0, r1.requested_at⟩ := by
    rw [markAssignedStmt, lookupRow_updateWhere, h1]
    rfl
  have h3 : lookupRow (enRouteStmt (markAssignedStmt
      (matchedWorld (persistRequested w ride) ride dd).rides ride.ride_id)
      ride.ride_id) ride.ride_id =
      some ⟨RideStatus.EN_ROUTE, some dd, 0, r1.requested_at⟩ := by
    rw [enRouteStmt, lookupRow_updateWhere, h2]
    rfl
  have h4 : lookupRow (completeStmt (enRouteStmt (markAssignedStmt
      (matchedWorld (persistRequested w ride) ride dd).rides ride.ride_id)
      ride.ride_id) ride.ride_id) ride.ride_id =
      some ⟨RideStatus.COMPLETED, some dd, 0, r1.requested_at⟩ := by
    rw [completeStmt, lookupRow_updateWhere, h3]
    rfl
  have hrowid : row.driver_id = dd := by
    have h := List.find?_some hfd
    simpa using h
  have hfM : ∀ d : Driver,
      ((fun dr : Driver => { dr with status := DriverStatus.MATCHING, lon := ride.pickup_lon, lat := ride.pickup_lat }) d).driver_id =
        d.driver_id := fun d => rfl
  have hfA : ∀ d : Driver,
      ((fun dr : Driver => { dr with status := DriverStatus.AVAILABLE, lon := ride.dropoff_lon, lat := ride.dropoff_lat }) d).driver_id =
        d.driver_id := fun d => rfl
  have hfd2 : findDriver (matchedWorld (persistRequested w ride) ride dd).drivers
      dd = some { row with status := DriverStatus.MATCHING, lon := ride.pickup_lon, lat := ride.pickup_lat } := by
    simp only [matchedWorld]
    rw [hd, findDriver_updateDriver _ _ _ hfM, hfd]
    simp [hrowid]
  have hfd3 : findDriver (updateDriver
      (matchedWorld (persistRequested w ride) ride dd).drivers dd
      (fun dr => { dr with status := DriverStatus.AVAILABLE, lon := ride.dropoff_lon, lat := ride.dropoff_lat })) dd =
      some { row with status := DriverStatus.AVAILABLE, lon := ride.dropoff_lon, lat := ride.dropoff_lat } := by
    rw [findDriver_updateDriver _ _ _ hfA, hfd2]
    simp [hrowid]
  unfold completeRide terminalTriple
  cases hct : lookupRow
      (matchedWorld (persistRequested w ride) ride dd).trips ride.ride_id with
  | none =>
    simp only [hct]
    refine Prod.ext ?_ (Prod.ext ?_ ?_)
    · simp [h4]
    · simp [lookupRow_cons_self]
    · simp [h4, hfd3]
  | some t =>
    simp only [hct]
    refine Prod.ext ?_ (Prod.ext ?_ ?_)
    · simp [h4]
    · simp [hct]
    · simp [h4, hfd3]

theorem nonePath_state {β : Type} [LinearOrder β]
    (dist : ℚ → ℚ → ℚ → ℚ → β) (w : World) (ride : Ride)
    (hm : (matchRide dist (persistRequested w ride) ride).1 = none) :
    (processRide dist w ride).trips = w.trips ∧
    (processRide dist w ride).drivers = w.drivers ∧
    (processRide dist w ride).busy = w.busy ∧
    (processRide dist w ride).fetchFails = w.fetchFails ∧
    (processRide dist w ride).txnFails = w.txnFails ∧
    (lookupRow (processRide dist w ride).rides ride.ride_id).bind
      RideRow.assigned_driver =
      (lookupRow w.rides ride.ride_id).bind RideRow.assigned_driver := by
  rw [processRide_none_eq dist w ride hm]
  obtain ⟨hd, htr, hb, hf, ht⟩ := persistRequested_parts w ride
  refine ⟨htr, hd, hb, hf, ht, ?_⟩
  have hl1 := persistRequested_lookup w ride
  cases ha : lookupRow w.rides ride.ride_id with
  | none =>
    rw [ha] at hl1
    rw [expireStmt, bumpRetriesStmt, lookupRow_updateWhere,
      lookupRow_updateWhere, hl1]
    rfl
  | some r =>
    rw [ha] at hl1
    cases har : r.assigned_driver with
    | none =>
      rw [expireStmt, bumpRetriesStmt, lookupRow_updateWhere,
        lookupRow_updateWhere, hl1]
      simp [har]
    | some x =>
      rw [expireStmt, bumpRetriesStmt, lookupRow_updateWhere,
        lookupRow_updateWhere, hl1]
      simp [har]

theorem somePath_state {β : Type} [LinearOrder β]
    (dist : ℚ → ℚ → ℚ → ℚ → β) (w : World) (ride : Ride) (dd : Nat)
    (hm : matchRide dist (persistRequested w ride) ride =
      (some dd, matchedWorld (persistRequested w ride) ride dd)) :
    (processRide dist w ride).busy = w.busy ∧
    (processRide dist w ride).fetchFails = w.fetchFails ∧
    (processRide dist w ride).txnFails = w.txnFails ∧
    (processRide dist w ride).drivers =
      updateDriver (updateDriver w.drivers dd
        (fun dr => { dr with status := DriverStatus.MATCHING, lon := ride.pickup_lon, lat := ride.pickup_lat })) dd
        (fun dr => { dr with status := DriverStatus.AVAILABLE, lon := ride.dropoff_lon, lat := ride.dropoff_lat }) ∧
    (lookupRow w.trips ride.ride_id = none →
      (processRide dist w ride).trips =
        (ride.ride_id, (⟨dd, ride.pickup_lon, ride.pickup_lat, ride.dropoff_lon, ride.dropoff_lat⟩ : TripRow)) :: w.trips) ∧
    (∀ t, lookupRow w.trips ride.ride_id = some t →
      (processRide dist w ride).trips = w.trips) := by
  rw [processRide_some_eq dist w ride dd hm]
  obtain ⟨hd, htr, hb, hf, ht⟩ := persistRequested_parts w ride
  unfold completeRide
  cases hct : lookupRow
      (matchedWorld (persistRequested w ride) ride dd).trips ride.ride_id with
  | none =>
    simp only [hct]
    have hct' : lookupRow w.trips ride.ride_id = none := by
      have : (matchedWorld (persistRequested w ride) ride dd).trips = w.trips := by
        simp [matchedWorld, htr]
      rw [this] at hct
      exact hct
    refine ⟨?_, hf, ht, ?_, fun _ => ?_, fun t hsome => ?_⟩
    · simp [matchedWorld, release_driver, srem, hb]
    · simp [matchedWorld, hd]
    · simp [matchedWorld, htr]
    · rw [hct'] at hsome
      cases hsome
  | some t0 =>
    simp only [hct]
    have hct' : lookupRow w.trips ride.ride_id = some t0 := by
      have : (matchedWorld (persistRequested w ride) ride dd).trips = w.trips := by
        simp [matchedWorld, htr]
      rw [this] at hct
      exact hct
    refine ⟨?_, hf, ht, ?_, fun habs => ?_, fun t hsome => ?_⟩
    · simp [matchedWorld, release_driver, srem, hb]
    · simp [matchedWorld, hd]
    · rw [hct'] at habs
      cases habs
    · simp [matchedWorld, htr]

/-- C7: running the same ride seed through the worker twice serially yields
the same terminal `(ride.status, trip.ride_id, driver.status)` triple as a
single run; the trip insert's `ON CONFLICT (ride_id) DO NOTHING` makes the
second completion leave the trips table unchanged; a COMPLETED ride always
has its trip row; and the trips table keeps one row per ride id. -/
theorem claim_C7_idempotent {β : Type} [LinearOrder β]
    (dist : ℚ → ℚ → ℚ → ℚ → β) (w : World) (ride : Ride)
    (hn : (w.drivers.map Driver.driver_id).Nodup) :
    terminalTriple (processRide dist (processRide dist w ride) ride)
        ride.ride_id =
      terminalTriple (processRide dist w ride) ride.ride_id ∧
    (processRide dist (processRide dist w ride) ride).trips =
      (processRide dist w ride).trips ∧
    ((terminalTriple (processRide dist w ride) ride.ride_id).1 =
        some RideStatus.COMPLETED →
      (terminalTriple (processRide dist w ride) ride.ride_id).2.1 =
        some ride.ride_id) ∧
    ((w.trips.map Prod.fst).Nodup →
      ((processRide dist w ride).trips.map Prod.fst).Nodup) := by
  rcases matchRide_spec dist (persistRequested w ride) ride with
    ⟨hm1, _⟩ | ⟨e, hecand, heq, hff, htf, hbusy, row, hfd, hav⟩
  · obtain ⟨htr1, hdr1, hbu1, hff1, htf1, has1⟩ := nonePath_state dist w ride hm1
    obtain ⟨hpd, hptr, hpb, hpf, hpt⟩ :=
      persistRequested_parts (processRide dist w ride) ride
    obtain ⟨hqd, hqtr, hqb, hqf, hqt⟩ := persistRequested_parts w ride
    have hm2 : (matchRide dist
        (persistRequested (processRide dist w ride) ride) ride).1 = none := by
      rw [matchRide_fst_decision] at hm1 ⊢
      rw [hqd, hqb, hqf, hqt] at hm1
      rw [hpd, hpb, hpf, hpt, hdr1, hbu1, hff1, htf1]
      exact hm1
    have hT1 := terminalTriple_nonePath dist w ride hm1
    have hT2 := terminalTriple_nonePath dist (processRide dist w ride) ride hm2
    obtain ⟨htr2, _, _, _, _, _⟩ :=
      nonePath_state dist (processRide dist w ride) ride hm2
    refine ⟨?_, htr2, ?_, ?_⟩
    · rw [hT1, hT2, has1, htr1, hdr1]
    · intro hcomp
      rw [hT1] at hcomp
      by_cases hc : (lookupRow w.rides ride.ride_id).bind
          RideRow.assigned_driver = none
      · rw [if_pos hc] at hcomp
        simp at hcomp
      · rw [if_neg hc] at hcomp
        simp at hcomp
    · intro hnd
      rw [htr1]
      exact hnd
  · obtain ⟨hqd, hqtr, hqb, hqf, hqt⟩ := persistRequested_parts w ride
    rw [hqd] at hfd
    rw [hqb] at hbusy
    rw [hqf] at hff
    rw [hqt] at htf
    have hT1 := terminalTriple_somePath dist w ride e.driver_id heq row hfd
    obtain ⟨hbu1, hff1, htf1, hdr1, htripn, htrips⟩ :=
      somePath_state dist w ride e.driver_id heq
    obtain ⟨t1, ht1⟩ : ∃ t1,
        lookupRow (processRide dist w ride).trips ride.ride_id = some t1 := by
      cases hw : lookupRow w.trips ride.ride_id with
      | none =>
        rw [htripn hw]
        exact ⟨_, lookupRow_cons_self _ _ _⟩
      | some t =>
        rw [htrips t hw, hw]
        exact ⟨t, rfl⟩
    have hfM : ∀ d : Driver,
        ((fun dr : Driver => { dr with status := DriverStatus.MATCHING, lon := ride.pickup_lon, lat := ride.pickup_lat }) d).driver_id =
          d.driver_id := fun d => rfl
    have hfA : ∀ d : Driver,
        ((fun dr : Driver => { dr with status := DriverStatus.AVAILABLE, lon := ride.dropoff_lon, lat := ride.dropoff_lat }) d).driver_id =
          d.driver_id := fun d => rfl
    have hn1 : ((processRide dist w ride).drivers.map Driver.driver_id).Nodup := by
      rw [hdr1, updateDriver_map_driver_id _ _ _ hfA,
        updateDriver_map_driver_id _ _ _ hfM]
      exact hn
    have hfd' := hfd
    rw [findDriver] at hfd'
    have hrowid : row.driver_id = e.driver_id := by
      have h := List.find?_some hfd'
      simpa using h
    have hrowmem : row ∈ w.drivers := List.mem_of_find?_eq_some hfd'
    have hmemW1 : ({ row with status := DriverStatus.AVAILABLE, lon := ride.dropoff_lon, lat := ride.dropoff_lat } : Driver) ∈
        (processRide dist w ride).drivers := by
      rw [hdr1]
      unfold updateDriver
      have h1 := List.mem_map_of_mem
        (fun d : Driver => if d.driver_id = e.driver_id then { d with status := DriverStatus.MATCHING, lon := ride.pickup_lon, lat := ride.pickup_lat } else d)
        hrowmem
      simp only [hrowid, eq_self_iff_true, if_true] at h1
      have h2 := List.mem_map_of_mem
        (fun d : Driver => if d.driver_id = e.driver_id then { d with status := DriverStatus.AVAILABLE, lon := ride.dropoff_lon, lat := ride.dropoff_lat } else d)
        h1
      simp only [eq_self_iff_true, if_true] at h2
      simp only [hrowid]
      exact h2
    obtain ⟨hpd, hptr, hpb, hpf, hpt⟩ :=
      persistRequested_parts (processRide dist w ride) ride
    obtain ⟨dd2, hdd2⟩ : ∃ dd2, (matchRide dist
        (persistRequested (processRide dist w ride) ride) ride).1 =
          some dd2 := by
      refine matchRide_isSome dist _ ride ?_ ?_ ?_
        ({ row with status := DriverStatus.AVAILABLE, lon := ride.dropoff_lon, lat := ride.dropoff_lat } : Driver) ?_ rfl ?_
      · rw [hpf, hff1, hff]
      · rw [hpt, htf1, htf]
      · rw [hpd]
        exact hn1
      · rw [hpd]
        exact hmemW1
      · rw [hpb, hbu1]
        show row.driver_id ∉ w.busy
        rw [hrowid]
        exact hbusy
    rcases matchRide_spec dist
        (persistRequested (processRide dist w ride) ride) ride with
      ⟨hno, _⟩ | ⟨e2, _, heq2, _, _, _, row2, hfd2, _⟩
    · rw [hno] at hdd2
      cases hdd2
    · rw [hpd] at hfd2
      have hT2 := terminalTriple_somePath dist (processRide dist w ride) ride
        e2.driver_id heq2 row2 hfd2
      obtain ⟨_, _, _, _, _, htrips2⟩ :=
        somePath_state dist (processRide dist w ride) ride e2.driver_id heq2
      refine ⟨?_, htrips2 t1 ht1, ?_, ?_⟩
      · rw [hT1, hT2]
      · intro _
        rw [hT1]
      · intro hnd
        cases hw : lookupRow w.trips ride.ride_id with
        | none =>
          rw [htripn hw, List.map_cons, List.nodup_cons]
          exact ⟨(lookupRow_eq_none_iff _ _).mp hw, hnd⟩
        | some t =>
          rw [htrips t hw]
          exact hnd

/-- Witness for C7: one available driver and fresh tables; both serial runs
end with the same terminal triple. -/
theorem claim_C7_idempotent_witness :
    terminalTriple (processRide (fun _ _ _ _ => (0 : ℚ))
        (processRide (fun _ _ _ _ => (0 : ℚ))
          (⟨[⟨7, 0, 0, DriverStatus.AVAILABLE⟩], [], [], [], false, false⟩ : World)
          ⟨1, 0, 0, 2, 2, 0, 1⟩)
        ⟨1, 0, 0, 2, 2, 0, 1⟩) 1 =
      terminalTriple (processRide (fun _ _ _ _ => (0 : ℚ))
        (⟨[⟨7, 0, 0, DriverStatus.AVAILABLE⟩], [], [], [], false, false⟩ : World)
        ⟨1, 0, 0, 2, 2, 0, 1⟩) 1 :=
  (claim_C7_idempotent (fun _ _ _ _ => (0 : ℚ))
      (⟨[⟨7, 0, 0, DriverStatus.AVAILABLE⟩], [], [], [], false, false⟩ : World)
      ⟨1, 0, 0, 2, 2, 0, 1⟩ (by decide)).1

/-! ## C9 — the scenario-1 distance and fare -/

theorem sin_in_bounds (lo hi x : ℝ) (h0 : 0 ≤ lo) (hl : lo ≤ x) (hh : x ≤ hi)
    (h1 : hi ≤ 1) :
    lo - hi^3/6 - hi^4*(5/96) ≤ Real.sin x ∧
      Real.sin x ≤ hi - lo^3/6 + hi^4*(5/96) := by
  have hx0 : 0 ≤ x := h0.trans hl
  have hxabs : |x| ≤ 1 := by
    rw [abs_of_nonneg hx0]
    linarith
  have hb := abs_le.mp (Real.sin_bound hxabs)
  rw [abs_of_nonneg hx0] at hb
  have h3 : x^3 ≤ hi^3 := pow_le_pow_left₀ hx0 hh 3
  have h3' : lo^3 ≤ x^3 := pow_le_pow_left₀ h0 hl 3
  have h4 : x^4 ≤ hi^4 := pow_le_pow_left₀ hx0 hh 4
  constructor
  · linarith [hb.1]
  · linarith [hb.2]

set_option maxHeartbeats 1600000 in
theorem scenario1_distance_bounds :
    (2.016 : ℝ) ≤ _haversine (-73.98) 40.75 (-73.96) 40.76 ∧
      _haversine (-73.98) 40.75 (-73.96) 40.76 ≤ 2.0211 := by
  have hpi1 : (3.141592 : ℝ) < Real.pi := Real.pi_gt_d6
  have hpi2 : Real.pi < 3.141593 := Real.pi_lt_d6
  have e1 : ((radians 40.76 - radians 40.75)/2 : ℝ) = Real.pi/36000 := by
    unfold radians
    ring
  have e2 : ((radians (-73.96) - radians (-73.98))/2 : ℝ) = Real.pi/18000 := by
    unfold radians
    ring
  have e3 : radians 40.75 = 163*Real.pi/720 := by
    unfold radians
    ring
  have e4 : radians 40.76 = 1019*Real.pi/4500 := by
    unfold radians
    ring
  have key : _haversine (-73.98) 40.75 (-73.96) 40.76 =
      6371 * (2 * Real.arcsin (Real.sqrt (Real.sin (Real.pi/36000)^2 +
        Real.cos (163*Real.pi/720) * Real.cos (1019*Real.pi/4500) *
          Real.sin (Real.pi/18000)^2))) := by
    unfold _haversine EARTH_R
    rw [e1, e2, e3, e4]
  -- sine of the half latitude delta
  have hsA := sin_in_bounds (3.141592/36000) (3.141593/36000) (Real.pi/36000)
    (by norm_num) (by linarith) (by linarith) (by norm_num)
  have hsA_lo : (8.72664e-5 : ℝ) ≤ Real.sin (Real.pi/36000) :=
    le_trans (by norm_num) hsA.1
  have hsA_hi : Real.sin (Real.pi/36000) ≤ 8.72665e-5 :=
    le_trans hsA.2 (by norm_num)
  have hsA0 : (0:ℝ) ≤ Real.sin (Real.pi/36000) :=
    le_trans (by norm_num) hsA_lo
  have hsA2_lo : (7.6154e-9 : ℝ) ≤ Real.sin (Real.pi/36000)^2 :=
    le_trans (by norm_num) (pow_le_pow_left₀ (by norm_num) hsA_lo 2)
  have hsA2_hi : Real.sin (Real.pi/36000)^2 ≤ 7.6155e-9 :=
    le_trans (pow_le_pow_left₀ hsA0 hsA_hi 2) (by norm_num)
  -- sine of the half longitude delta
  have hsE := sin_in_bounds (3.141592/18000) (3.141593/18000) (Real.pi/18000)
    (by norm_num) (by linarith) (by linarith) (by norm_num)
  have hsE_lo : (1.74532e-4 : ℝ) ≤ Real.sin (Real.pi/18000) :=
    le_trans (by norm_num) hsE.1
  have hsE_hi : Real.sin (Real.pi/18000) ≤ 1.74533e-4 :=
    le_trans hsE.2 (by norm_num)
  have hsE0 : (0:ℝ) ≤ Real.sin (Real.pi/18000) :=
    le_trans (by norm_num) hsE_lo
  have hsE2_lo : (3.0461e-8 : ℝ) ≤ Real.sin (Real.pi/18000)^2 :=
    le_trans (by norm_num) (pow_le_pow_left₀ (by norm_num) hsE_lo 2)
  have hsE2_hi : Real.sin (Real.pi/18000)^2 ≤ 3.0462e-8 :=
    le_trans (pow_le_pow_left₀ hsE0 hsE_hi 2) (by norm_num)
  -- cosine of the first latitude via the half angle
  have hs1 := sin_in_bounds (163*3.141592/1440) (163*3.141593/1440)
    (163*Real.pi/1440) (by norm_num) (by linarith) (by linarith) (by norm_num)
  have hs1_lo : (0.34728 : ℝ) ≤ Real.sin (163*Real.pi/1440) :=
    le_trans (by norm_num) hs1.1
  have hs1_hi : Real.sin (163*Real.pi/1440) ≤ 0.34895 :=
    le_trans hs1.2 (by norm_num)
  have hs10 : (0:ℝ) ≤ Real.sin (163*Real.pi/1440) :=
    le_trans (by norm_num) hs1_lo
  have hc1eq : Real.cos (163*Real.pi/720) =
      1 - 2*Real.sin (163*Real.pi/1440)^2 := by
    have h2 : (163*Real.pi/720 : ℝ) = 2*(163*Real.pi/1440) := by ring
    rw [h2, Real.cos_two_mul, Real.cos_sq']
    ring
  have hs1sq_hi : Real.sin (163*Real.pi/1440)^2 ≤ (0.34895:ℝ)^2 :=
    pow_le_pow_left₀ hs10 hs1_hi 2
  have hs1sq_lo : ((0.34728:ℝ))^2 ≤ Real.sin (163*Real.pi/1440)^2 :=
    pow_le_pow_left₀ (by norm_num) hs1_lo 2
  have hn1a : ((0.34895:ℝ))^2 = 0.1217661025 := by norm_num
  have hn1b : ((0.34728:ℝ))^2 = 0.1206033984 := by norm_num
  have hc1_lo : (0.75646 : ℝ) ≤ Real.cos (163*Real.pi/720) := by
    rw [hc1eq]
    rw [hn1a] at hs1sq_hi
    linarith
  have hc1_hi : Real.cos (163*Real.pi/720) ≤ 0.75880 := by
    rw [hc1eq]
    rw [hn1b] at hs1sq_lo
    linarith
  -- cosine of the second latitude via the half angle
  have hs2 := sin_in_bounds (1019*3.141592/9000) (1019*3.141593/9000)
    (1019*Real.pi/9000) (by norm_num) (by linarith) (by linarith) (by norm_num)
  have hs2_lo : (0.34736 : ℝ) ≤ Real.sin (1019*Real.pi/9000) :=
    le_trans (by norm_num) hs2.1
  have hs2_hi : Real.sin (1019*Real.pi/9000) ≤ 0.34904 :=
    le_trans hs2.2 (by norm_num)
  have hs20 : (0:ℝ) ≤ Real.sin (1019*Real.pi/9000) :=
    le_trans (by norm_num) hs2_lo
  have hc2eq : Real.cos (1019*Real.pi/4500) =
      1 - 2*Real.sin (1019*Real.pi/9000)^2 := by
    have h2 : (1019*Real.pi/4500 : ℝ) = 2*(1019*Real.pi/9000) := by ring
    rw [h2, Real.cos_two_mul, Real.cos_sq']
    ring
  have hs2sq_hi : Real.sin (1019*Real.pi/9000)^2 ≤ (0.34904:ℝ)^2 :=
    pow_le_pow_left₀ hs20 hs2_hi 2
  have hs2sq_lo : ((0.34736:ℝ))^2 ≤ Real.sin (1019*Real.pi/9000)^2 :=
    pow_le_pow_left₀ (by norm_num) hs2_lo 2
  have hn2a : ((0.34904:ℝ))^2 = 0.1218289216 := by norm_num
  have hn2b : ((0.34736:ℝ))^2 = 0.1206589696 := by norm_num
  have hc2_lo : (0.75634 : ℝ) ≤ Real.cos (1019*Real.pi/4500) := by
    rw [hc2eq]
    rw [hn2a] at hs2sq_hi
    linarith
  have hc2_hi : Real.cos (1019*Real.pi/4500) ≤ 0.75869 := by
    rw [hc2eq]
    rw [hn2b] at hs2sq_lo
    linarith
  -- the product of cosines
  have hc10 : (0:ℝ) ≤ Real.cos (163*Real.pi/720) :=
    le_trans (by norm_num) hc1_lo
  have hc20 : (0:ℝ) ≤ Real.cos (1019*Real.pi/4500) :=
    le_trans (by norm_num) hc2_lo
  have hp_lo : (0.5721 : ℝ) ≤
      Real.cos (163*Real.pi/720) * Real.cos (1019*Real.pi/4500) := by
    have h := mul_le_mul hc1_lo hc2_lo (by norm_num) hc10
    have hn : ((0.75646:ℝ)) * 0.75634 = 0.5721409564 := by norm_num
    rw [hn] at h
    linarith
  have hp_hi : Real.cos (163*Real.pi/720) * Real.cos (1019*Real.pi/4500) ≤
      0.5757 := by
    have h := mul_le_mul hc1_hi hc2_hi hc20 (by norm_num)
    have hn : ((0.75880:ℝ)) * 0.75869 = 0.575693972 := by norm_num
    rw [hn] at h
    linarith
  -- the haversine argument
  have hp0 : (0:ℝ) ≤ Real.cos (163*Real.pi/720) * Real.cos (1019*Real.pi/4500) :=
    mul_nonneg hc10 hc20
  have hpe_lo : (0.5721:ℝ) * 3.0461e-8 ≤
      Real.cos (163*Real.pi/720) * Real.cos (1019*Real.pi/4500) *
        Real.sin (Real.pi/18000)^2 :=
    mul_le_mul hp_lo hsE2_lo (by norm_num) hp0
  have hpe_hi : Real.cos (163*Real.pi/720) * Real.cos (1019*Real.pi/4500) *
      Real.sin (Real.pi/18000)^2 ≤ (0.5757:ℝ) * 3.0462e-8 :=
    mul_le_mul hp_hi hsE2_hi (by positivity) (by norm_num)
  have hH_lo : (2.504e-8 : ℝ) ≤ Real.sin (Real.pi/36000)^2 +
      Real.cos (163*Real.pi/720) * Real.cos (1019*Real.pi/4500) *
        Real.sin (Real.pi/18000)^2 := by
    have hn : ((0.5721:ℝ)) * 3.0461e-8 = 1.74267381e-8 := by norm_num
    rw [hn] at hpe_lo
    linarith
  have hH_hi : Real.sin (Real.pi/36000)^2 +
      Real.cos (163*Real.pi/720) * Real.cos (1019*Real.pi/4500) *
        Real.sin (Real.pi/18000)^2 ≤ 2.5153e-8 := by
    have hn : ((0.5757:ℝ)) * 3.0462e-8 = 1.75369734e-8 := by norm_num
    rw [hn] at hpe_hi
    linarith
  -- the square root
  have hs_lo : (1.5824e-4 : ℝ) ≤ Real.sqrt (Real.sin (Real.pi/36000)^2 +
      Real.cos (163*Real.pi/720) * Real.cos (1019*Real.pi/4500) *
        Real.sin (Real.pi/18000)^2) :=
    Real.le_sqrt_of_sq_le (le_trans (by norm_num) hH_lo)
  have hs_hi : Real.sqrt (Real.sin (Real.pi/36000)^2 +
      Real.cos (163*Real.pi/720) * Real.cos (1019*Real.pi/4500) *
        Real.sin (Real.pi/18000)^2) ≤ 1.586e-4 :=
    (Real.sqrt_le_left (by norm_num)).mpr (le_trans hH_hi (by norm_num))
  -- the arcsine
  have harc_lo : (1.5824e-4 : ℝ) ≤ Real.arcsin (Real.sqrt
      (Real.sin (Real.pi/36000)^2 +
        Real.cos (163*Real.pi/720) * Real.cos (1019*Real.pi/4500) *
          Real.sin (Real.pi/18000)^2)) := by
    have h1 : Real.sqrt (Real.sin (Real.pi/36000)^2 +
        Real.cos (163*Real.pi/720) * Real.cos (1019*Real.pi/4500) *
          Real.sin (Real.pi/18000)^2) ≤ 1 := le_trans hs_hi (by norm_num)
    have h2 := Real.sin_arcsin
      (le_trans (by norm_num : (-1:ℝ) ≤ 0) (Real.sqrt_nonneg _)) h1
    have h3 := Real.sin_le (Real.arcsin_nonneg.mpr (Real.sqrt_nonneg
      (Real.sin (Real.pi/36000)^2 +
        Real.cos (163*Real.pi/720) * Real.cos (1019*Real.pi/4500) *
          Real.sin (Real.pi/18000)^2)))
    rw [h2] at h3
    linarith
  have harc_hi : Real.arcsin (Real.sqrt
      (Real.sin (Real.pi/36000)^2 +
        Real.cos (163*Real.pi/720) * Real.cos (1019*Real.pi/4500) *
          Real.sin (Real.pi/18000)^2)) ≤ 1.5861e-4 := by
    have hst : (1.586e-4 : ℝ) ≤ Real.sin 1.5861e-4 := by
      have hb := sin_in_bounds (1.5861e-4) (1.5861e-4) (1.5861e-4 : ℝ)
        (by norm_num) le_rfl le_rfl (by norm_num)
      exact le_trans (by norm_num) hb.1
    have hmono := Real.monotone_arcsin (le_trans hs_hi hst)
    rw [Real.arcsin_sin (by linarith) (by linarith)] at hmono
    exact hmono
  rw [key]
  constructor
  · linarith
  · linarith

theorem round2R_close (y : ℝ) : |round2R y - y| ≤ 1/200 := by
  have h1 := abs_sub_round (y*100)
  have h2 : round2R y - y = -((y*100 - ((round (y*100) : ℤ) : ℝ))/100) := by
    unfold round2R
    ring
  rw [h2, abs_neg, abs_div, abs_of_nonneg (by norm_num : (0:ℝ) ≤ 100)]
  linarith

theorem scenario1_fare_bounds :
    (6.61 : ℝ) ≤ calculate_fare (_haversine (-73.98) 40.75 (-73.96) 40.76) ∧
      calculate_fare (_haversine (-73.98) 40.75 (-73.96) 40.76) ≤ 6.65 := by
  obtain ⟨hd1, hd2⟩ := scenario1_distance_bounds
  have hr := abs_le.mp (round2R_close
    (3 + _haversine (-73.98) 40.75 (-73.96) 40.76 * 1.8))
  unfold calculate_fare
  constructor
  · linarith [hr.1]
  · linarith [hr.2]

/-- C9 counterexample: the great-circle distance the code computes for the
scenario-1 coordinates exceeds 2.01 km, so it is not approximately 1.77 km
(the deviation exceeds 0.2 km, over 13 percent), and the fare exceeds
6.61, so it is not approximately 6.19. -/
theorem claim_C9_counterexample :
    ¬ |_haversine (-73.98) 40.75 (-73.96) 40.76 - 1.77| ≤ 0.2 ∧
    ¬ |calculate_fare (_haversine (-73.98) 40.75 (-73.96) 40.76) - 6.19| ≤ 0.2 := by
  obtain ⟨hd1, _⟩ := scenario1_distance_bounds
  obtain ⟨hf1, _⟩ := scenario1_fare_bounds
  constructor
  · intro h
    have := le_abs_self (_haversine (-73.98) 40.75 (-73.96) 40.76 - 1.77)
    linarith
  · intro h
    have := le_abs_self
      (calculate_fare (_haversine (-73.98) 40.75 (-73.96) 40.76) - 6.19)
    linarith

/-- C9 (amended): for the scenario-1 coordinates, the great-circle distance
computed by `_haversine` with Earth radius 6371 km from pickup
`(-73.98, 40.75)` to dropoff `(-73.96, 40.76)` is approximately 2.02 km
(within 0.01), and the fare `calculate_fare(d) = round(3.0 + 1.8·d, 2)`
for that distance is approximately 6.63 (within 0.02). -/
theorem claim_C9_scenario1 :
    |_haversine (-73.98) 40.75 (-73.96) 40.76 - 2.02| ≤ 0.01 ∧
    |calculate_fare (_haversine (-73.98) 40.75 (-73.96) 40.76) - 6.63| ≤ 0.02 := by
  obtain ⟨hd1, hd2⟩ := scenario1_distance_bounds
  obtain ⟨hf1, hf2⟩ := scenario1_fare_bounds
  constructor
  · rw [abs_le]
    constructor <;> linarith
  · rw [abs_le]
    constructor <;> linarith

end RideShare
